import Mathlib

/-!
Verification of `eempy/read_data/read_data.py` (repository YongminHu/EEMpy).

The Python module is shallowly embedded here.  A text file is modelled as the
list of its lines with the trailing newline removed (every use in the source
either calls `.strip()` on the line or tokenises it with `split()`, both of
which discard the newline).  Machine floats are modelled as rationals; the
special value NaN, used by `read_abs` for a missing absorbance, is modelled by
`Option` (`none` = NaN).  Python exceptions are modelled with `Except PyErr`.
-/

namespace EEMpy

/-- A line of a text file, as a list of characters (newline stripped). -/
abbrev Line := List Char

/-- A 2-D numpy array of floats, as a list of rows. -/
abbrev Mat := List (List ℚ)

/-- Python exception outcomes reachable in the embedded code.  `hang` marks a
loop of the source that provably does not terminate on the given input. -/
inductive PyErr
  | indexError
  | valueError
  | nameError
  | hang
deriving DecidableEq

instance {ε α : Type} [DecidableEq ε] [DecidableEq α] : DecidableEq (Except ε α) := fun a b =>
  match a, b with
  | .error e, .error f =>
    if h : e = f then .isTrue (by rw [h]) else .isFalse (fun hh => h (Except.error.inj hh))
  | .ok x, .ok y =>
    if h : x = y then .isTrue (by rw [h]) else .isFalse (fun hh => h (Except.ok.inj hh))
  | .error _, .ok _ => .isFalse (fun hh => Except.noConfusion hh)
  | .ok _, .error _ => .isFalse (fun hh => Except.noConfusion hh)

/-- Numeric value of a list of decimal digit characters (most significant
first); `0` on the empty list. -/
def natOfDigits (s : List Char) : ℕ :=
  s.foldl (fun a c => a * 10 + (c.toNat - '0'.toNat)) 0

/-- Helper for `pySplit`: accumulate the current token (reversed) while
scanning the characters. -/
def pySplitGo (cur : Line) : Line → List Line
  | [] => if cur.isEmpty then [] else [cur.reverse]
  | c :: cs =>
    if c.isWhitespace then
      if cur.isEmpty then pySplitGo [] cs else cur.reverse :: pySplitGo [] cs
    else pySplitGo (c :: cur) cs

/-- Python `str.split()` with no argument: split on runs of whitespace,
dropping empty tokens. -/
def pySplit (s : Line) : List Line := pySplitGo [] s

/-- Helper for `digitRuns`: accumulate the current digit run (reversed). -/
def digitRunsGo (cur : Line) : Line → List Line
  | [] => if cur.isEmpty then [] else [cur.reverse]
  | c :: cs =>
    if c.isDigit then digitRunsGo (c :: cur) cs
    else if cur.isEmpty then digitRunsGo [] cs
    else cur.reverse :: digitRunsGo [] cs

/-- Python `re.findall(r"\d+", s)`: the maximal runs of decimal digits. -/
def digitRuns (s : Line) : List Line := digitRunsGo [] s

/-- Nonnegative case of Python `float(token)`: digits with an optional
fractional part (`"12"`, `"12.5"`, `"12."`, `".5"`).  Exotic float syntax
(exponents, `nan`, `inf`) does not occur in the file formats in scope and is
not modelled: such tokens are treated as unparsable, like any other
`ValueError`. -/
def pyFloatPos (s : Line) : Option ℚ :=
  let intPart := s.takeWhile Char.isDigit
  let rest := s.dropWhile Char.isDigit
  match rest with
  | [] => if intPart.isEmpty then none else some (natOfDigits intPart)
  | '.' :: frac =>
    if frac.all Char.isDigit && (!intPart.isEmpty || !frac.isEmpty) then
      some ((natOfDigits intPart : ℚ) + (natOfDigits frac : ℚ) / (10 ^ frac.length))
    else none
  | _ => none

/-- Python `float(token)`, with an optional sign. -/
def pyFloat (s : Line) : Option ℚ :=
  match s with
  | '-' :: rest => (pyFloatPos rest).map (fun q => -q)
  | '+' :: rest => pyFloatPos rest
  | _ => pyFloatPos s

/-- Python `list(map(float, tokens))`: all tokens must parse, else the first
failure raises `ValueError` (modelled as `none`). -/
def sequenceFloats : List Line → Option (List ℚ)
  | [] => some []
  | t :: ts =>
    match pyFloat t with
    | none => none
    | some q => (sequenceFloats ts).map (fun r => q :: r)

/-- `numpy` transpose of a table of rows all having width `C` (`data.T` in
`read_eem`); width-aware so that a table with zero rows transposes to `C`
empty rows, as numpy does for a `(0, C)` array. -/
def transposeW (C : ℕ) (rows : List (List ℚ)) : Mat :=
  (List.range C).map (fun i => rows.map (fun r => r.getD i 0))

/-- The row-accumulation loop of `read_eem` (source lines 62-79).  For each
line: the first whitespace token must exist (`IndexError` otherwise, uncaught);
if it fails to parse as a float the row is skipped (`ValueError` caught by the
outer handler); otherwise the emission wavelength is appended to `idx` and the
remaining tokens are parsed — a failure there is also caught by the outer
handler (the wavelength stays in `idx`); a parsed row whose width differs from
the running table width `C` makes `np.concatenate` raise, which is caught,
a diagnostic `(np.size(data), np.size(dataline))` is printed and the loop
breaks.  The printed diagnostic is returned as data here. -/
def eemLoop (C : ℕ) (idx : List ℚ) (rows : List (List ℚ)) :
    List Line → Except PyErr (List ℚ × List (List ℚ) × Option (ℕ × ℕ))
  | [] => .ok (idx, rows, none)
  | l :: ls =>
    match pySplit l with
    | [] => .error .indexError
    | t0 :: ts =>
      match pyFloat t0 with
      | none => eemLoop C idx rows ls
      | some w =>
        match sequenceFloats ts with
        | none => eemLoop C (idx ++ [w]) rows ls
        | some r =>
          if r.length = C then eemLoop C (idx ++ [w]) (rows ++ [r]) ls
          else .ok (idx ++ [w], rows, some ((1 + rows.length) * C, r.length))

/-- `read_eem` (source lines 17-97), on the lines of the file.  The index
extraction from the filename is not modelled (no claim concerns it).  The
header line is tokenised by digit runs; the data rows are accumulated by
`eemLoop`; the table is transposed; the emission and excitation grids are
reversed when their first entry exceeds their second (accessing entry `1` of a
shorter grid raises `IndexError`, as `numpy` does).  A `data_format` other
than `"aqualog"` skips the whole reading block, so `intensity = data.T`
raises `NameError` on the unbound `data` (the `Warning(...)` meant for this
case is attached to the excitation-grid check and is a no-op expression
anyway).  The fourth component is the printed dimension diagnostic, if any. -/
def read_eem (lines : List Line) (data_format : Line) :
    Except PyErr (Mat × List ℚ × List ℚ × Option (ℕ × ℕ)) :=
  if data_format = "aqualog".toList then
    let firstline := lines.headD []
    let header := digitRuns firstline
    let C := header.length
    match eemLoop C [] [] lines.tail with
    | .error e => .error e
    | .ok (idx, rows, diag) =>
      let intensity := transposeW C rows
      let ex0 : List ℚ := header.map (fun d => (natOfDigits d : ℚ))
      match idx, ex0 with
      | e0 :: e1 :: _, x0 :: x1 :: _ =>
        let em_range := if e0 > e1 then idx.reverse else idx
        let ex_range := if x0 > x1 then ex0.reverse else ex0
        .ok (intensity, ex_range, em_range, diag)
      | _, _ => .error .indexError
  else .error .nameError

/-- The line loop of `read_abs` (source lines 218-230).  The first token of
each line must exist and parse as a float (`IndexError` / `ValueError` there
are uncaught); a missing second token (`IndexError`, caught) stores NaN
(modelled as `none`); a second token that fails to parse raises `ValueError`,
which the handler does not catch. -/
def absLoop : List Line → Except PyErr (List ℚ × List (Option ℚ))
  | [] => .ok ([], [])
  | l :: ls =>
    match pySplit l with
    | [] => .error .indexError
    | t0 :: ts =>
      match pyFloat t0 with
      | none => .error .valueError
      | some w =>
        let v : Except PyErr (Option ℚ) :=
          match ts with
          | [] => .ok none
          | t1 :: _ =>
            match pyFloat t1 with
            | none => .error .valueError
            | some q => .ok (some q)
        match v with
        | .error e => .error e
        | .ok val =>
          match absLoop ls with
          | .error e => .error e
          | .ok (idx, data) => .ok (w :: idx, val :: data)

/-- `read_abs` (source lines 188-237): read the wavelength/absorbance pairs in
file order, then reverse both lists (`np.flipud`).  A `data_format` other than
`"aqualog"` leaves `absorbance`/`ex_range` unbound (the `Warning(...)` in the
`else` branch is a no-op expression), so the `return` raises `NameError`.
Returns `(absorbance, ex_range)`; the filename index is not modelled. -/
def read_abs (lines : List Line) (data_format : Line) :
    Except PyErr (List (Option ℚ) × List ℚ) :=
  if data_format = "aqualog".toList then
    match absLoop lines with
    | .error e => .error e
    | .ok (idx, data) => .ok (data.reverse, idx.reverse)
  else .error .nameError

/-- The line loop of `read_reference_from_text` (source lines 304-309).  Only
`IndexError` (a line with no tokens) is caught and skipped; a first token that
fails to parse as a float raises `ValueError`, which propagates. -/
def refLoop : List Line → Except PyErr (List ℚ)
  | [] => .ok []
  | l :: ls =>
    match pySplit l with
    | [] => refLoop ls
    | t0 :: _ =>
      match pyFloat t0 with
      | none => .error .valueError
      | some q => (refLoop ls).map (fun r => q :: r)

/-- `read_reference_from_text` (source lines 275-311): the first line's first
whitespace token is the header (`IndexError` if the file is empty or the first
line has no tokens); each later line contributes the float value of its first
token, token-less lines being skipped.  Returns `(reference_data, header)`. -/
def read_reference_from_text (lines : List Line) :
    Except PyErr (List ℚ × Line) :=
  match lines with
  | [] => .error .indexError
  | h :: rest =>
    match pySplit h with
    | [] => .error .indexError
    | t0 :: _ => (refLoop rest).map (fun r => (r, t0))

/-! ### Wavelength-grid arithmetic and the interpolation collaborators -/

/-- `np.max` of a list of floats (`0` on the empty list, where numpy raises;
the aggregators only apply it to grids returned by the readers, which the
claims' hypotheses keep nonempty). -/
def maxQ : List ℚ → ℚ
  | [] => 0
  | x :: xs => xs.foldl max x

/-- `np.min`, same conventions as `maxQ`. -/
def minQ : List ℚ → ℚ
  | [] => 0
  | x :: xs => xs.foldl min x

/-- The uniform sampling interval of a grid:
`(np.max(g) - np.min(g)) / (g.shape[0] - 1)` (source lines 158-161, 259-260).
For a one-point grid numpy yields `nan = 0/0`, every comparison with which is
false; here the rational `0/0 = 0` makes the aggregator's strict comparisons
`0 < 0` equally false, so the branch decisions agree. -/
def interval (g : List ℚ) : ℚ := (maxQ g - minQ g) / ((g.length : ℚ) - 1)

/-- Piecewise-linear interpolation of the data points `(xs, ys)` at `t`
(value only; range checking is done by the caller `interp1d_eval`). -/
def interpVal (xs ys : List ℚ) (t : ℚ) : ℚ :=
  match xs, ys with
  | x0 :: x1 :: xr, y0 :: y1 :: yr =>
    if t ≤ x1 then y0 + (y1 - y0) * (t - x0) / (x1 - x0)
    else interpVal (x1 :: xr) (y1 :: yr) t
  | _, _ => 0

/-- Modelled from the spec: the external 1-D interpolation routine
(`scipy.interpolate.interp1d` constructed and then evaluated on a grid; spec
§6: resample from a source sampling onto a target sampling, plus scipy's
construction-time length check and default out-of-bounds error). -/
def interp1d_eval (xs ys ts : List ℚ) : Except PyErr (List ℚ) :=
  if xs.length ≠ ys.length ∨ xs.length < 2 then .error .valueError
  else if ts.any (fun t => decide (t < minQ xs) || decide (maxQ xs < t)) then
    .error .valueError
  else .ok (ts.map (interpVal xs ys))

/-- Modelled from the spec: the external 2-D interpolation collaborator
`eem_interpolation(intensity, em_old, ex_old, em_new, ex_new, method)` from
`eempy.eem_processing`, which is not under `src/` (spec §1, §6: resample a 2-D
grid of values from a source sampling onto a target sampling).  Since
`read_eem` stores `intensity` with excitation as the first axis, the output
has shape `(len(ex_new), len(em_new))` — the orientation that keeps the
aggregator's stack insertions shape-consistent.  Values are separable linear
interpolation. -/
def eem_interpolation (intensity : Mat) (em_old ex_old em_new ex_new : List ℚ) : Mat :=
  ex_new.map (fun x =>
    em_new.map (fun e =>
      interpVal ex_old (intensity.map (fun row => interpVal em_old row e)) x))

/-- Modelled from the spec: `process_eem_stack(stack, eem_interpolation, ...)`
applies the 2-D resampling across every slice of a 3-D stack (spec §6,
operation (b)). -/
def process_eem_stack (stack : List Mat) (em_old ex_old em_new ex_new : List ℚ) :
    List Mat :=
  stack.map (fun s => eem_interpolation s em_old ex_old em_new ex_new)

/-- An `(r, c)` matrix of zeros (`np.zeros`). -/
def zerosM (r c : ℕ) : Mat := List.replicate r (List.replicate c 0)

/-- The shape of a matrix, first rows then columns, reading the column count
off the first row (all matrices handled here are rectangular). -/
def matDims (m : Mat) : ℕ × ℕ := (m.length, (m.headD []).length)

/-! ### Dataset aggregators -/

/-- The per-file result of `read_eem` consumed by `read_eem_dataset` (the
filename index plays no role in the claims). -/
structure EEMFile where
  intensity : Mat
  ex : List ℚ
  em : List ℚ

/-- One iteration of the `read_eem_dataset` loop (source lines 153-184) for
file number `n` over state `(eem_stack, em_range_old, ex_range_old)`.  The
last component counts `eem_interpolation` invocations (one for the direct
call, one per slice through `process_eem_stack`).  The stack insertion
`eem_stack[n,:,:] = intensity` is modelled as succeeding exactly on equal
shapes (numpy broadcasting of degenerate shapes is out of scope); on a
mismatch the `ValueError` is caught and the slice keeps its zeros. -/
def eemDatasetStep (wavelength_alignment : Bool) (stack : List Mat)
    (em_old ex_old : List ℚ) (n : ℕ) (f : EEMFile) :
    List Mat × List ℚ × List ℚ × ℕ :=
  if wavelength_alignment then
    let emIntNew := interval f.em
    let emIntOld := interval em_old
    let exIntNew := interval f.ex
    let exIntOld := interval ex_old
    let em_tgt := if decide (emIntOld < emIntNew) then em_old else f.em
    let ex_tgt := if decide (exIntOld < exIntNew) then ex_old else f.ex
    let up := decide (emIntOld < emIntNew) || decide (exIntOld < exIntNew)
    let down := decide (emIntNew < emIntOld) || decide (exIntNew < exIntOld)
    let intensity2 :=
      if up then eem_interpolation f.intensity f.em f.ex.reverse em_tgt ex_tgt.reverse
      else f.intensity
    let em2 := if up then em_old else f.em
    let ex2 := if up then ex_old else f.ex
    let stack2 :=
      if down then process_eem_stack stack em_old ex_old.reverse em_tgt ex_tgt.reverse
      else stack
    let stack3 :=
      if matDims intensity2 = matDims (stack2.getD n []) then stack2.set n intensity2
      else stack2
    (stack3, em2, ex2, (if up then 1 else 0) + (if down then stack.length else 0))
  else
    let stack3 :=
      if matDims f.intensity = matDims (stack.getD n []) then stack.set n f.intensity
      else stack
    (stack3, f.em, f.ex, 0)

/-- The `for n in range(1, len(filename_list))` loop of `read_eem_dataset`,
threading the state and the interpolation-call count. -/
def eemDatasetLoop (align : Bool) :
    List EEMFile → ℕ → List Mat → List ℚ → List ℚ → ℕ →
    List Mat × List ℚ × List ℚ × ℕ
  | [], _n, stack, em_old, ex_old, cnt => (stack, ex_old, em_old, cnt)
  | f :: fs, n, stack, em_old, ex_old, cnt =>
    let s := eemDatasetStep align stack em_old ex_old n f
    eemDatasetLoop align fs (n + 1) s.1 s.2.1 s.2.2.1 (cnt + s.2.2.2)

/-- `read_eem_dataset` (source lines 100-185) on the list of per-file
`read_eem` results.  Returns the stack, the final excitation grid, the final
emission grid (the loop variables after the last iteration, which equal the
running "old" grids), and the total number of `eem_interpolation` calls.  An
empty file list raises `IndexError` at `filename_list[0]`. -/
def read_eem_dataset (files : List EEMFile) (wavelength_alignment : Bool) :
    Except PyErr (List Mat × List ℚ × List ℚ × ℕ) :=
  match files with
  | [] => .error .indexError
  | f0 :: rest =>
    let d := matDims f0.intensity
    let stack0 := (List.replicate (rest.length + 1) (zerosM d.1 d.2)).set 0 f0.intensity
    .ok (eemDatasetLoop wavelength_alignment rest 1 stack0 f0.em f0.ex 0)

/-- The per-file result of `read_abs` consumed by `read_abs_dataset`.  The
absorbance values are abstracted to rationals (a NaN entry would interpolate
to NaN; no claim depends on the values). -/
structure AbsFile where
  absorbance : List ℚ
  ex : List ℚ

/-- The rebuild of the accumulated absorbance stack when a finer grid arrives
(source lines 265-269): rows `0..n-1` are interpolated from the old grid onto
the new one into a fresh zero matrix of width `width`; a row of the wrong
length makes the numpy row assignment raise. -/
def absRebuildLoop (ex_old ex_new : List ℚ) (width : ℕ) :
    List (List ℚ) → Except PyErr (List (List ℚ))
  | [] => .ok []
  | row :: rows =>
    match interp1d_eval ex_old row ex_new with
    | .error e => .error e
    | .ok r =>
      if r.length = width then
        (absRebuildLoop ex_old ex_new width rows).map (fun s => r :: s)
      else .error .valueError

/-- One iteration of the `read_abs_dataset` loop (source lines 254-271) for
file `n`.  Note the source never resets `ex_range` after upsampling a coarser
file onto the old grid, and always ends with `ex_range_old = ex_range`, so the
running grid becomes the new file's grid unconditionally. -/
def absDatasetStep (align : Bool) (N : ℕ) (stack : List (List ℚ))
    (ex_old : List ℚ) (n : ℕ) (f : AbsFile) :
    Except PyErr (List (List ℚ) × List ℚ) :=
  let resampled : Except PyErr (List ℚ × List (List ℚ)) :=
    if align then
      if decide (interval ex_old < interval f.ex) then
        (interp1d_eval f.ex f.absorbance ex_old).map (fun a => (a, stack))
      else if decide (interval f.ex < interval ex_old) then
        match absRebuildLoop ex_old f.ex f.absorbance.length (stack.take n) with
        | .error e => .error e
        | .ok rows =>
          .ok (f.absorbance,
            rows ++ List.replicate (N - n) (List.replicate f.absorbance.length 0))
      else .ok (f.absorbance, stack)
    else .ok (f.absorbance, stack)
  match resampled with
  | .error e => .error e
  | .ok (a, stack2) =>
    if a.length = (stack2.getD n []).length then .ok (stack2.set n a, f.ex)
    else .error .valueError

/-- The `for` loop of `read_abs_dataset`. -/
def absDatasetLoop (align : Bool) (N : ℕ) :
    List AbsFile → ℕ → List (List ℚ) → List ℚ →
    Except PyErr (List (List ℚ) × List ℚ)
  | [], _n, stack, ex_old => .ok (stack, ex_old)
  | f :: fs, n, stack, ex_old =>
    match absDatasetStep align N stack ex_old n f with
    | .error e => .error e
    | .ok (stack2, ex2) => absDatasetLoop align N fs (n + 1) stack2 ex2

/-- `read_abs_dataset` (source lines 240-272) on the list of per-file
`read_abs` results.  Returns the stack and the final excitation grid. -/
def read_abs_dataset (files : List AbsFile) (wavelength_alignment : Bool) :
    Except PyErr (List (List ℚ) × List ℚ) :=
  match files with
  | [] => .error .indexError
  | f0 :: rest =>
    let stack0 :=
      (List.replicate (rest.length + 1)
        (List.replicate f0.absorbance.length (0 : ℚ))).set 0 f0.absorbance
    absDatasetLoop wavelength_alignment (rest.length + 1) rest 1 stack0 f0.ex

/-! ### PARAFAC model reader -/

/-- Whether the first character list starts the second. -/
def hasPre : List Char → List Char → Bool
  | [], _ => true
  | _ :: _, [] => false
  | a :: as, b :: bs => a == b && hasPre as bs

/-- Whether the first character list occurs contiguously in the second. -/
def hasSub (sub : List Char) : List Char → Bool
  | [] => sub.isEmpty
  | c :: cs => hasPre sub (c :: cs) || hasSub sub cs

/-- Python `sub in s` (substring containment) for strings. -/
def pyIn (sub s : String) : Bool := hasSub sub.toList s.toList

/-- Containment of the comment marker, `'#' in line`. -/
def hashIn (s : String) : Bool := pyIn "#" s

/-- A pandas `DataFrame` as produced by this reader: a two-level row index,
index level names, column labels, and the data cells (kept as the raw
tab-separated fields; no claim depends on their numeric values). -/
structure PyFrame (ι : Type) where
  index : List ι
  indexNames : List String
  columns : List String
  values : List (List String)
deriving DecidableEq

/-- A parsed timestamp (`pandas.to_datetime` result). -/
structure PyDate where
  year : ℕ
  month : ℕ
  day : ℕ
deriving DecidableEq

/-- Helper for `splitCh`: accumulate the current field (reversed). -/
def splitChGo (sep : Char) (cur : List Char) : List Char → List String
  | [] => [String.mk cur.reverse]
  | c :: cs =>
    if c = sep then String.mk cur.reverse :: splitChGo sep [] cs
    else splitChGo sep (c :: cur) cs

/-- Split on every occurrence of a single separator character, keeping empty
fields — Python `str.split(sep)`, the pandas tab tokenizer, and
`String.splitOn` for a one-character separator all agree on this. -/
def splitCh (sep : Char) (s : String) : List String := splitChGo sep [] s.toList

/-- A nonempty all-digit string, as a number. -/
def parseNatStr (s : String) : Option ℕ :=
  let cs := s.toList
  if !cs.isEmpty && cs.all Char.isDigit then some (natOfDigits cs) else none

/-- Modelled from the spec: `pandas.to_datetime` on one second-level index
string of the scores table (spec §4.4: "timestamp parsed ... as a datetime").
Only the plain `YYYY-MM-DD` date form is modelled; anything else fails to
parse, as `to_datetime` raises on an unparsable string. -/
def parseDate (s : String) : Option PyDate :=
  match splitCh '-' s with
  | [y, m, d] =>
    match parseNatStr y, parseNatStr m, parseNatStr d with
    | some a, some b, some c => some ⟨a, b, c⟩
    | _, _, _ => none
  | _ => none

/-- Modelled `pd.read_csv(filepath, sep="\t", header=None, index_col=[0,1],
skiprows=a, nrows=b)`: the `b` lines after the first `a`, each split on tabs.
The pandas tokenizer needs a rectangular table with at least the two index
fields; otherwise it raises.  Returns the field rows and the data-column
count. -/
def readCsv (lines : List String) (a b : ℕ) :
    Except PyErr (List (List String) × ℕ) :=
  let rows := ((lines.drop a).take b).map (fun l => splitCh '\t' l)
  match rows with
  | [] => .ok ([], 0)
  | r :: rs =>
    if 2 ≤ r.length && rs.all (fun q => q.length = r.length) then
      .ok (r :: rs, r.length - 2)
    else .error .valueError

/-- The component column labels `"component 1" .. "component N"` (source line
374). -/
def component_label (n : ℕ) : List String :=
  (List.range n).map (fun r => "component " ++ toString (r + 1))

/-- The two-level index of a loadings table: the first two fields of each
row. -/
def rawIndex (rows : List (List String)) : List (String × String) :=
  rows.map (fun r => (r.getD 0 "", r.getD 1 ""))

/-- The scores index after `set_levels(..., pd.to_datetime(...))`: each row's
first two fields, the second parsed as a datetime; an unparsable string makes
`to_datetime` raise (`none` here). -/
def parseScoreIndex : List (List String) → Option (List (String × PyDate))
  | [] => some []
  | r :: rs =>
    match parseDate (r.getD 1 "") with
    | none => none
    | some d => (parseScoreIndex rs).map (fun t => (r.getD 0 "", d) :: t)

/-- The scores table built at the `end` marker (source lines 397-403):
`read_csv` over the score rows, the second index level run through
`pd.to_datetime` (raising on an unparsable string via `set_levels`), and the
component columns attached (raising if the width disagrees). -/
def mkScores (L : List String) (a b : ℕ) (labels : List String) :
    Except PyErr (PyFrame (String × PyDate)) :=
  match readCsv L a b with
  | .error e => .error e
  | .ok (rows, nc) =>
    match parseScoreIndex rows with
    | none => .error .valueError
    | some ix =>
      if labels.length = nc then
        .ok { index := ix, indexNames := ["type", "time"], columns := labels,
              values := rows.map (fun r => r.drop 2) }
      else .error .valueError

/-- The terminal `while '#' in line` loop of `read_parafac_model` (source
lines 395-405): on a comment line containing `end` the scores table is built
(identically on every iteration, since `line_count` is no longer advanced) and
the next line is read; a comment line without `end` loops forever re-testing
the same line. -/
def endLoop (sc : Except PyErr (PyFrame (String × PyDate)))
    (found : Option (PyFrame (String × PyDate))) :
    List String → Except PyErr (Option (PyFrame (String × PyDate)))
  | [] => .ok found
  | l :: ls =>
    if hashIn l then
      if pyIn "end" l then
        match sc with
        | .error e => .error e
        | .ok v => endLoop sc (some v) ls
      else .error .hang
    else .ok found

/-- `read_parafac_model` (source lines 324-407) on the lines of the file.
The streaming line-count bookkeeping is reproduced through take/drop-while
cursor arithmetic; each `while` loop of the source maps to one `takeWhile`
below, and the absolute indices handed to `pd.read_csv` are recomputed exactly
as the source's `line_count_*` variables.  The two loops of the source that
spin forever when their closing marker never arrives (`while '#' not in line`
at end of file, and a terminal comment line without `end`) are modelled by the
`hang` outcome. -/
def read_parafac_model (L : List String) :
    Except PyErr (PyFrame (String × String) × PyFrame (String × String) ×
      Option (PyFrame (String × PyDate)) × List (String × String)) :=
  let c1 := (L.takeWhile hashIn).length
  let rest1 := L.dropWhile hashIn
  let metaRows := rest1.takeWhile (fun l => !hashIn l)
  let rest2 := rest1.dropWhile (fun l => !hashIn l)
  if rest2.isEmpty then .error .hang
  else
    let info := metaRows.map (fun l =>
      match splitCh '\t' l with
      | p0 :: p1 :: _ => (p0, p1)
      | [p0] => (p0, "")
      | [] => ("", ""))
    let c3 := (rest2.takeWhile hashIn).length
    let rest3 := rest2.dropWhile hashIn
    if c3 = 0 then .error .nameError
    else
      let idx3 := c1 + metaRows.length + c3
      let c4 := (rest3.takeWhile (fun l => pyIn "Ex" l)).length
      let rest4 := rest3.dropWhile (fun l => pyIn "Ex" l)
      match readCsv L idx3 c4 with
      | .error e => .error e
      | .ok (exRows, nEx) =>
        let labels := component_label nEx
        let idx4 := idx3 + c4
        let c5 := (rest4.takeWhile (fun l => pyIn "Em" l)).length
        let rest5 := rest4.dropWhile (fun l => pyIn "Em" l)
        match readCsv L idx4 c5 with
        | .error e => .error e
        | .ok (emRows, nEm) =>
          if labels.length = nEm then
            let ex_df : PyFrame (String × String) :=
              { index := rawIndex exRows, indexNames := ["type", "wavelength"],
                columns := labels, values := exRows.map (fun r => r.drop 2) }
            let em_df : PyFrame (String × String) :=
              { index := rawIndex emRows, indexNames := ["type", "wavelength"],
                columns := labels, values := emRows.map (fun r => r.drop 2) }
            let idx5 := idx4 + c5
            let c6 := (rest5.takeWhile hashIn).length
            let rest6 := rest5.dropWhile hashIn
            let idx6 := idx5 + c6
            let c7 := (rest6.takeWhile (fun l => pyIn "Score" l)).length
            let rest7 := rest6.dropWhile (fun l => pyIn "Score" l)
            match endLoop (mkScores L idx6 c7 labels) none rest7 with
            | .error e => .error e
            | .ok score_df => .ok (ex_df, em_df, score_df, info)
          else .error .valueError

/-- A well-formed OpenFluor-convention PARAFAC model file (spec §4.4): a
leading comment block, a nonempty metadata block, the excitation marker
comment, the excitation loadings rows, the emission loadings rows, then
either a score marker comment with the score rows or nothing, and the `end`
marker comment. -/
def mkOpenFluor (lead metaRows exRows emRows scoreRows : List String)
    (withScores : Bool) : List String :=
  lead ++ metaRows ++ ["# Excitation"] ++ exRows ++ emRows ++
    (if withScores then "# Score" :: scoreRows ++ ["# end"] else ["# end"])

/-! ### Characterisation lemmas for the single-record readers -/

/-- The lines `ls` are data rows that `read_eem`'s loop accepts in full:
each line tokenises into a leading emission wavelength (parsing to the
corresponding entry of `ws`) followed by intensity tokens parsing to the
corresponding row of `rs`, of width `C`. -/
inductive RowsOk (C : ℕ) : List Line → List ℚ → List (List ℚ) → Prop
  | nil : RowsOk C [] [] []
  | cons {t0 : Line} {ts : List Line} {l : Line} {w : ℚ} {r : List ℚ}
      {ls : List Line} {ws : List ℚ} {rs : List (List ℚ)} :
      pySplit l = t0 :: ts → pyFloat t0 = some w → sequenceFloats ts = some r →
      r.length = C → RowsOk C ls ws rs → RowsOk C (l :: ls) (w :: ws) (r :: rs)

/-- The lines `ls` are absorbance rows `read_abs` accepts: each has a parsing
wavelength token, and the value is the parsed second token when present
(`some q`) and NaN (`none`) when the line holds only the wavelength. -/
inductive AbsOk : List Line → List ℚ → List (Option ℚ) → Prop
  | nil : AbsOk [] [] []
  | consNaN {l : Line} {t0 : Line} {w : ℚ} {ls ws vs} :
      pySplit l = [t0] → pyFloat t0 = some w →
      AbsOk ls ws vs → AbsOk (l :: ls) (w :: ws) (none :: vs)
  | consVal {l : Line} {t0 t1 : Line} {ts : List Line} {w q : ℚ} {ls ws vs} :
      pySplit l = t0 :: t1 :: ts → pyFloat t0 = some w → pyFloat t1 = some q →
      AbsOk ls ws vs → AbsOk (l :: ls) (w :: ws) (some q :: vs)

/-- The lines `ls` are data lines the reference reader accepts without
raising: token-less lines are skipped, and every line bearing a token has a
numeric first token contributing to `qs`. -/
inductive RefOk : List Line → List ℚ → Prop
  | nil : RefOk [] []
  | skip {l : Line} {ls qs} : pySplit l = [] → RefOk ls qs → RefOk (l :: ls) qs
  | val {l : Line} {t0 : Line} {ts : List Line} {q : ℚ} {ls qs} :
      pySplit l = t0 :: ts → pyFloat t0 = some q →
      RefOk ls qs → RefOk (l :: ls) (q :: qs)

lemma RowsOk.ws_length {C ls ws rs} (h : RowsOk C ls ws rs) :
    ws.length = rs.length := by
  induction h with
  | nil => rfl
  | cons _ _ _ _ _ ih => simpa using ih

lemma RowsOk.width {C ls ws rs} (h : RowsOk C ls ws rs) :
    ∀ r ∈ rs, r.length = C := by
  induction h with
  | nil => simp
  | cons _ _ _ hl _ ih => simpa using ⟨hl, ih⟩

/-- Fully accepted rows accumulate in order and the loop ends cleanly. -/
lemma eemLoop_ok {C : ℕ} {ls : List Line} {ws : List ℚ} {rs : List (List ℚ)}
    (h : RowsOk C ls ws rs) :
    ∀ idx rows, eemLoop C idx rows ls = .ok (idx ++ ws, rows ++ rs, none) := by
  induction h with
  | nil => intro idx rows; simp [eemLoop]
  | cons hsplit hfloat hseq hlen _ ih =>
    intro idx rows
    simp only [eemLoop, hsplit, hfloat, hseq, hlen, if_pos, ih]
    simp

/-- A row of inconsistent width after fully accepted rows stops the loop: the
offending wavelength is appended, the row is dropped, the later lines are
never read, and the diagnostic carries `np.size(data)` (the seed row included)
and `np.size(dataline)`. -/
lemma eemLoop_break {C : ℕ} {ls : List Line} {ws : List ℚ} {rs : List (List ℚ)}
    (h : RowsOk C ls ws rs) {bad : Line} {t0 : Line} {ts : List Line} {w : ℚ}
    {r : List ℚ} (hsplit : pySplit bad = t0 :: ts) (hfloat : pyFloat t0 = some w)
    (hseq : sequenceFloats ts = some r) (hlen : r.length ≠ C) (tail : List Line) :
    ∀ idx rows, eemLoop C idx rows (ls ++ bad :: tail)
      = .ok (idx ++ ws ++ [w], rows ++ rs,
             some ((1 + (rows ++ rs).length) * C, r.length)) := by
  induction h with
  | nil =>
    intro idx rows
    simp only [List.nil_append, eemLoop, hsplit, hfloat, hseq, if_neg hlen]
    simp
  | cons hsplit' hfloat' hseq' hlen' _ ih =>
    intro idx rows
    simp only [List.cons_append, eemLoop, hsplit', hfloat', hseq', hlen', if_pos,
      List.append_eq]
    rw [ih]
    simp [List.append_assoc]

/-- `read_eem` on a header line followed by fully accepted data rows.  The
final grids keep the parsed values, reversed exactly when the first entry
exceeds the second. -/
lemma read_eem_ok {hdr : Line} {body : List Line} {w0 w1 : ℚ} {wt : List ℚ}
    {rs : List (List ℚ)} {x0 x1 : ℚ} {xt : List ℚ}
    (hrows : RowsOk (digitRuns hdr).length body (w0 :: w1 :: wt) rs)
    (hex : (digitRuns hdr).map (fun d => (natOfDigits d : ℚ)) = x0 :: x1 :: xt) :
    read_eem (hdr :: body) "aqualog".toList
      = .ok (transposeW (digitRuns hdr).length rs,
             if x0 > x1 then (x0 :: x1 :: xt).reverse else x0 :: x1 :: xt,
             if w0 > w1 then (w0 :: w1 :: wt).reverse else w0 :: w1 :: wt,
             none) := by
  simp only [read_eem, if_pos rfl, List.headD, List.tail, eemLoop_ok hrows, hex,
    List.nil_append]
  rfl

/-- The `read_abs` line loop on fully accepted rows. -/
lemma absLoop_ok {ls : List Line} {ws : List ℚ} {vs : List (Option ℚ)}
    (h : AbsOk ls ws vs) : absLoop ls = .ok (ws, vs) := by
  induction h with
  | nil => rfl
  | consNaN hsplit hfloat _ ih => simp [absLoop, hsplit, hfloat, ih]
  | consVal hsplit hfloat hval _ ih => simp [absLoop, hsplit, hfloat, hval, ih]

/-- The reference-reader loop on accepted lines. -/
lemma refLoop_ok {ls : List Line} {qs : List ℚ} (h : RefOk ls qs) :
    refLoop ls = .ok qs := by
  induction h with
  | nil => rfl
  | skip hsplit _ ih => simp [refLoop, hsplit, ih]
  | val hsplit hfloat _ ih => simp [refLoop, hsplit, hfloat, ih, Except.map]

/-- Accepted reference lines contribute exactly one value per token-bearing
line. -/
lemma RefOk.count_eq {ls : List Line} {qs : List ℚ} (h : RefOk ls qs) :
    qs.length = (ls.filter (fun l => !(pySplit l).isEmpty)).length := by
  induction h with
  | nil => rfl
  | skip hsplit _ ih => simp [List.filter, hsplit, ih]
  | val hsplit _ _ ih => simp [List.filter, hsplit, ih]

/-! ### Claims about the single-record readers -/

/-- Claim C2, counterexample: on a file whose emission grid is stored
descending (`600` then `500`), `read_eem` returns the grid ascending but the
intensity matrix in raw file order — its emission axis holds `600`'s row
before `500`'s.  Reversing "the corresponding intensity rows" along with the
grid, as the claim states, would give `[[3, 1], [4, 2]]`; the code returns
`[[1, 3], [2, 4]]`. -/
theorem read_eem_flip_leaves_matrix :
    read_eem ["200 300".toList, "600 1 2".toList, "500 3 4".toList] "aqualog".toList
      = .ok ([[1, 3], [2, 4]], [200, 300], [500, 600], none)
    ∧ ([[1, 3], [2, 4]] : Mat) ≠ [[3, 1], [4, 2]] :=
  ⟨by rfl, by decide⟩

/-- Claim C2 (amended): for a file whose emission grid is stored strictly
descending, `read_eem` reverses the emission grid alone, so the returned
emission grid is strictly ascending, while the intensity matrix keeps the raw
transposed order (its emission axis is not reversed); an already strictly
ascending excitation grid, and the intensity, are returned unchanged. -/
theorem read_eem_descending_em_grid {hdr : Line} {body : List Line} {w0 w1 : ℚ}
    {wt : List ℚ} {rs : List (List ℚ)} {x0 x1 : ℚ} {xt : List ℚ}
    (hrows : RowsOk (digitRuns hdr).length body (w0 :: w1 :: wt) rs)
    (hex : (digitRuns hdr).map (fun d => (natOfDigits d : ℚ)) = x0 :: x1 :: xt)
    (hdesc : (w0 :: w1 :: wt).Chain' (· > ·))
    (hasc : (x0 :: x1 :: xt).Chain' (· < ·)) :
    read_eem (hdr :: body) "aqualog".toList
      = .ok (transposeW (digitRuns hdr).length rs, x0 :: x1 :: xt,
             (w0 :: w1 :: wt).reverse, none)
    ∧ ((w0 :: w1 :: wt).reverse).Chain' (· < ·) := by
  have h01 : w0 > w1 := (List.chain'_cons.mp hdesc).1
  have hx01 : ¬ x0 > x1 := not_lt_of_gt (List.chain'_cons.mp hasc).1
  constructor
  · rw [read_eem_ok hrows hex]
    simp [h01, hx01]
  · rw [List.chain'_reverse]
    exact hdesc

/-- Claim C2, witness file: header `200 300`, rows at descending emission
wavelengths `600`, `500`. -/
theorem read_eem_descending_em_grid_witness :
    read_eem ["200 300".toList, "600 1 2".toList, "500 3 4".toList] "aqualog".toList
      = .ok (transposeW 2 [[1, 2], [3, 4]], [200, 300], [(600 : ℚ), 500].reverse, none)
    ∧ ([(600 : ℚ), 500].reverse).Chain' (· < ·) := by
  have hrows : RowsOk (digitRuns "200 300".toList).length
      ["600 1 2".toList, "500 3 4".toList] [(600 : ℚ), 500] [[1, 2], [3, 4]] := by
    refine RowsOk.cons
      (by decide : pySplit "600 1 2".toList = "600".toList :: ["1".toList, "2".toList])
      (by decide : pyFloat "600".toList = some 600)
      (by decide : sequenceFloats ["1".toList, "2".toList] = some [1, 2])
      (by decide) ?_
    exact RowsOk.cons
      (by decide : pySplit "500 3 4".toList = "500".toList :: ["3".toList, "4".toList])
      (by decide : pyFloat "500".toList = some 500)
      (by decide : sequenceFloats ["3".toList, "4".toList] = some [3, 4])
      (by decide) .nil
  have h := read_eem_descending_em_grid hrows
    (by decide :
      (digitRuns "200 300".toList).map (fun d => (natOfDigits d : ℚ)) = [200, 300])
    (by norm_num [List.chain'_cons, List.chain'_singleton])
    (by norm_num [List.chain'_cons, List.chain'_singleton])
  simpa using h

/-- Claim C3, counterexample: a file with 2 excitation and 3 emission
wavelengths yields an intensity matrix of shape `(2, 3)` — two rows, i.e.
`len(ex_range)` — whereas the claimed `(len(em_range), len(ex_range))` shape
would make the row count 3. -/
theorem read_eem_shape_not_em_ex :
    read_eem ["200 300".toList, "500 1 2".toList, "501 3 4".toList,
        "502 5 6".toList] "aqualog".toList
      = .ok ([[1, 3, 5], [2, 4, 6]], [200, 300], [500, 501, 502], none)
    ∧ ¬ ([[1, 3, 5], [2, 4, 6]] : Mat).length = 3 :=
  ⟨by rfl, by decide⟩

/-- Claim C3 (amended): for every well-formed EEM file, the matrix returned
by `read_eem` is the transpose of the raw table (whose rows are emission in
file order), hence indexed row = excitation, column = emission, with shape
`(len(ex_range), len(em_range))`. -/
theorem read_eem_shape_ex_em {hdr : Line} {body : List Line} {w0 w1 : ℚ}
    {wt : List ℚ} {rs : List (List ℚ)} {x0 x1 : ℚ} {xt : List ℚ}
    (hrows : RowsOk (digitRuns hdr).length body (w0 :: w1 :: wt) rs)
    (hex : (digitRuns hdr).map (fun d => (natOfDigits d : ℚ)) = x0 :: x1 :: xt) :
    ∃ m ex em, read_eem (hdr :: body) "aqualog".toList = .ok (m, ex, em, none)
      ∧ m = transposeW (digitRuns hdr).length rs
      ∧ m.length = ex.length ∧ ∀ row ∈ m, row.length = em.length := by
  refine ⟨_, _, _, read_eem_ok hrows hex, rfl, ?_, ?_⟩
  · have hx := congrArg List.length hex
    simp only [List.length_map] at hx
    simp only [transposeW, List.length_map, List.length_range, hx]
    split <;> simp
  · intro row hrow
    have hlen := hrows.ws_length
    simp only [transposeW, List.mem_map] at hrow
    obtain ⟨i, _, rfl⟩ := hrow
    simp only [List.length_map, ← hlen]
    split <;> simp

/-- Claim C3, witness file: 2 excitation wavelengths, 3 emission rows. -/
theorem read_eem_shape_ex_em_witness :
    ∃ m ex em, read_eem ["200 300".toList, "500 1 2".toList, "501 3 4".toList,
        "502 5 6".toList] "aqualog".toList = .ok (m, ex, em, none)
      ∧ m = transposeW 2 [[1, 2], [3, 4], [5, 6]]
      ∧ m.length = ex.length ∧ ∀ row ∈ m, row.length = em.length := by
  have hrows : RowsOk (digitRuns "200 300".toList).length
      ["500 1 2".toList, "501 3 4".toList, "502 5 6".toList]
      [(500 : ℚ), 501, 502] [[1, 2], [3, 4], [5, 6]] := by
    refine RowsOk.cons
      (by decide : pySplit "500 1 2".toList = "500".toList :: ["1".toList, "2".toList])
      (by decide : pyFloat "500".toList = some 500)
      (by decide : sequenceFloats ["1".toList, "2".toList] = some [1, 2])
      (by decide) ?_
    refine RowsOk.cons
      (by decide : pySplit "501 3 4".toList = "501".toList :: ["3".toList, "4".toList])
      (by decide : pyFloat "501".toList = some 501)
      (by decide : sequenceFloats ["3".toList, "4".toList] = some [3, 4])
      (by decide) ?_
    exact RowsOk.cons
      (by decide : pySplit "502 5 6".toList = "502".toList :: ["5".toList, "6".toList])
      (by decide : pyFloat "502".toList = some 502)
      (by decide : sequenceFloats ["5".toList, "6".toList] = some [5, 6])
      (by decide) .nil
  have h := read_eem_shape_ex_em hrows
    (by decide :
      (digitRuns "200 300".toList).map (fun d => (natOfDigits d : ℚ)) = [200, 300])
  simpa using h

/-- Shared characterisation of `read_eem` on a file whose first inconsistent
data row follows at least one accepted row: the result returns the accepted
rows only, with the break diagnostic, and the emission grid keeps the
offending row's wavelength as an extra entry. -/
lemma read_eem_break_aux {hdr : Line} {good : List Line} {w0 : ℚ}
    {wt : List ℚ} {rs : List (List ℚ)} {x0 x1 : ℚ} {xt : List ℚ}
    {bad t0 : Line} {ts : List Line} {w : ℚ} {r : List ℚ} (tail : List Line)
    (hrows : RowsOk (digitRuns hdr).length good (w0 :: wt) rs)
    (hex : (digitRuns hdr).map (fun d => (natOfDigits d : ℚ)) = x0 :: x1 :: xt)
    (hsplit : pySplit bad = t0 :: ts) (hfloat : pyFloat t0 = some w)
    (hseq : sequenceFloats ts = some r)
    (hlen : r.length ≠ (digitRuns hdr).length) :
    ∃ ex em, read_eem (hdr :: (good ++ bad :: tail)) "aqualog".toList
      = .ok (transposeW (digitRuns hdr).length rs, ex, em,
             some ((1 + rs.length) * (digitRuns hdr).length, r.length))
      ∧ em.length = wt.length + 2 ∧ ex.length = xt.length + 2 := by
  have hbreak := eemLoop_break hrows hsplit hfloat hseq hlen tail [] []
  simp only [List.nil_append] at hbreak
  simp only [read_eem, if_pos rfl, List.headD, List.tail, hbreak, hex,
    List.cons_append]
  cases wt with
  | nil => refine ⟨_, _, rfl, ?_, ?_⟩ <;> split <;> simp
  | cons w1 wt' => refine ⟨_, _, rfl, ?_, ?_⟩ <;> split <;> simp

/-- Claim C4, counterexample: when the very first data row's width already
disagrees with the header, the loop breaks before any row is accumulated, and
the grid-normalisation access `em_range[1]` then raises `IndexError`:
`read_eem` raises instead of returning. -/
theorem read_eem_first_row_mismatch_raises :
    read_eem ["200 300".toList, "500 1 2 3".toList] "aqualog".toList
      = .error .indexError := by rfl

/-- Claim C4 (amended): when a data row's token width disagrees with the
running table, `read_eem` stops the row loop at that row, never reads the
later lines, prints the offending row's width together with the accumulated
`np.size(data)` (equal to the header-implied column count only when the
mismatch is at the first data row), and returns exactly the rows accumulated
before the mismatch — provided at least one consistent data row preceded the
mismatch and the header holds at least two wavelengths; with no preceding
row, grid normalisation raises `IndexError` instead. -/
theorem read_eem_mismatch_truncates {hdr : Line} {good : List Line} {w0 : ℚ}
    {wt : List ℚ} {rs : List (List ℚ)} {x0 x1 : ℚ} {xt : List ℚ}
    {bad t0 : Line} {ts : List Line} {w : ℚ} {r : List ℚ} (tail : List Line)
    (hrows : RowsOk (digitRuns hdr).length good (w0 :: wt) rs)
    (hex : (digitRuns hdr).map (fun d => (natOfDigits d : ℚ)) = x0 :: x1 :: xt)
    (hsplit : pySplit bad = t0 :: ts) (hfloat : pyFloat t0 = some w)
    (hseq : sequenceFloats ts = some r)
    (hlen : r.length ≠ (digitRuns hdr).length) :
    ∃ ex em, read_eem (hdr :: (good ++ bad :: tail)) "aqualog".toList
      = .ok (transposeW (digitRuns hdr).length rs, ex, em,
             some ((1 + rs.length) * (digitRuns hdr).length, r.length)) := by
  obtain ⟨ex, em, heq, -, -⟩ :=
    read_eem_break_aux tail hrows hex hsplit hfloat hseq hlen
  exact ⟨ex, em, heq⟩

/-- Claim C4, witness: header `200 300`, one good row, a 3-token-wide bad row,
one unread trailing row. -/
theorem read_eem_mismatch_truncates_witness :
    ∃ ex em, read_eem ["200 300".toList, "500 1 2".toList, "501 7 8 9".toList,
        "502 1 2".toList] "aqualog".toList
      = .ok (transposeW (digitRuns "200 300".toList).length [[1, 2]], ex, em,
             some ((1 + 1) * (digitRuns "200 300".toList).length, 3)) := by
  have hrows : RowsOk (digitRuns "200 300".toList).length
      ["500 1 2".toList] [(500 : ℚ)] [[1, 2]] :=
    RowsOk.cons
      (by decide : pySplit "500 1 2".toList = "500".toList :: ["1".toList, "2".toList])
      (by decide : pyFloat "500".toList = some 500)
      (by decide : sequenceFloats ["1".toList, "2".toList] = some [1, 2])
      (by decide) .nil
  have h := read_eem_mismatch_truncates ["502 1 2".toList] hrows
    (by decide :
      (digitRuns "200 300".toList).map (fun d => (natOfDigits d : ℚ)) = [200, 300])
    (by decide :
      pySplit "501 7 8 9".toList = "501".toList :: ["7".toList, "8".toList, "9".toList])
    (by decide : pyFloat "501".toList = some 501)
    (by decide : sequenceFloats ["7".toList, "8".toList, "9".toList] = some [7, 8, 9])
    (by decide)
  simpa using h

/-- Claim C10: whenever the row loop aborts on a width mismatch (after at
least one accepted row, so that a result is returned at all), the offending
row's emission wavelength has already been appended, so the returned emission
grid has exactly one more entry than the intensity matrix counts along its
emission axis — the shape invariant fails on this error path. -/
theorem read_eem_mismatch_grid_excess {hdr : Line} {good : List Line} {w0 : ℚ}
    {wt : List ℚ} {rs : List (List ℚ)} {x0 x1 : ℚ} {xt : List ℚ}
    {bad t0 : Line} {ts : List Line} {w : ℚ} {r : List ℚ} (tail : List Line)
    (hrows : RowsOk (digitRuns hdr).length good (w0 :: wt) rs)
    (hex : (digitRuns hdr).map (fun d => (natOfDigits d : ℚ)) = x0 :: x1 :: xt)
    (hsplit : pySplit bad = t0 :: ts) (hfloat : pyFloat t0 = some w)
    (hseq : sequenceFloats ts = some r)
    (hlen : r.length ≠ (digitRuns hdr).length) :
    ∃ m ex em dg, read_eem (hdr :: (good ++ bad :: tail)) "aqualog".toList
      = .ok (m, ex, em, some dg)
      ∧ m.length = (digitRuns hdr).length
      ∧ ∀ row ∈ m, em.length = row.length + 1 := by
  obtain ⟨ex, em, heq, hemlen, -⟩ :=
    read_eem_break_aux tail hrows hex hsplit hfloat hseq hlen
  refine ⟨_, ex, em, _, heq, by simp [transposeW], ?_⟩
  intro row hrow
  simp only [transposeW, List.mem_map] at hrow
  obtain ⟨i, -, rfl⟩ := hrow
  have hlen2 := hrows.ws_length
  simp only [List.length_map, hemlen]
  simp only [List.length_cons] at hlen2
  omega

/-- Claim C10, witness: same file shape as the C4 witness. -/
theorem read_eem_mismatch_grid_excess_witness :
    ∃ m ex em dg, read_eem ["200 300".toList, "500 1 2".toList,
        "501 7 8 9".toList, "502 1 2".toList] "aqualog".toList
      = .ok (m, ex, em, some dg)
      ∧ m.length = (digitRuns "200 300".toList).length
      ∧ ∀ row ∈ m, em.length = row.length + 1 := by
  have hrows : RowsOk (digitRuns "200 300".toList).length
      ["500 1 2".toList] [(500 : ℚ)] [[1, 2]] :=
    RowsOk.cons
      (by decide : pySplit "500 1 2".toList = "500".toList :: ["1".toList, "2".toList])
      (by decide : pyFloat "500".toList = some 500)
      (by decide : sequenceFloats ["1".toList, "2".toList] = some [1, 2])
      (by decide) .nil
  exact read_eem_mismatch_grid_excess ["502 1 2".toList] hrows
    (by decide :
      (digitRuns "200 300".toList).map (fun d => (natOfDigits d : ℚ)) = [200, 300])
    (by decide :
      pySplit "501 7 8 9".toList = "501".toList :: ["7".toList, "8".toList, "9".toList])
    (by decide : pyFloat "501".toList = some 501)
    (by decide : sequenceFloats ["7".toList, "8".toList, "9".toList] = some [7, 8, 9])
    (by decide)

/-- Claim C6: requesting a `data_format` other than `aqualog` was meant to be
non-fatal (`Warning(...)` is constructed, never raised), but both readers then
hit an unbound variable — `read_eem` at `intensity = data.T`, `read_abs` at
its `return` — and raise `NameError` instead of returning (in `read_eem` the
warning even hangs on the excitation-grid check's `else`, not on the format
check).  Evaluated here on concrete inputs. -/
theorem unsupported_format_raises :
    read_eem ["250 300".toList, "500 1 2".toList] "csv".toList = .error .nameError
    ∧ read_abs ["550 1".toList] "csv".toList = .error .nameError :=
  ⟨rfl, rfl⟩

/-- Claim C7: a line holding only a wavelength stores NaN (`none`), a line
holding wavelength and value stores the value, and after reading the lines in
file order both the wavelength list and the absorbance list are reversed. -/
theorem read_abs_missing_value_nan {ls : List Line} {ws : List ℚ}
    {vs : List (Option ℚ)} (h : AbsOk ls ws vs) :
    read_abs ls "aqualog".toList = .ok (vs.reverse, ws.reverse) := by
  simp [read_abs, absLoop_ok h]

/-- Claim C7, witness: line `550 2` stores `2`, line `551` (no value) stores
NaN, and both lists come back reversed. -/
theorem read_abs_missing_value_nan_witness :
    read_abs ["550 2".toList, "551".toList] "aqualog".toList
      = .ok ([some (2 : ℚ), none].reverse, [(550 : ℚ), 551].reverse) := by
  refine read_abs_missing_value_nan ?_
  refine AbsOk.consVal
    (by decide : pySplit "550 2".toList = "550".toList :: "2".toList :: [])
    (by decide : pyFloat "550".toList = some 550)
    (by decide : pyFloat "2".toList = some 2) ?_
  exact AbsOk.consNaN
    (by decide : pySplit "551".toList = ["551".toList])
    (by decide : pyFloat "551".toList = some 551) .nil

/-- Claim C8, counterexample: the reference reader's handler catches only
`IndexError`, so a data line whose first token is not numeric (`abc`) raises
`ValueError` instead of being skipped — not every line that fails to parse is
skipped without raising. -/
theorem read_reference_nonnumeric_raises :
    read_reference_from_text ["DOC".toList, "1.0".toList, "abc".toList]
      = .error .valueError := by rfl

/-- Claim C8 (amended): the reference reader returns the first line's first
whitespace token as the header and one float per token-bearing data line;
lines with no tokens (e.g. a trailing blank line) are skipped without raising,
so the returned list's length equals the number of token-bearing data lines —
but a line whose first token exists and is not numeric raises `ValueError`
rather than being skipped. -/
theorem read_reference_tolerant_skip {hdl : Line} {rest : List Line}
    {qs : List ℚ} {t0 : Line} {ts : List Line}
    (hh : pySplit hdl = t0 :: ts) (hr : RefOk rest qs) :
    read_reference_from_text (hdl :: rest) = .ok (qs, t0)
    ∧ qs.length = (rest.filter (fun l => !(pySplit l).isEmpty)).length := by
  refine ⟨?_, hr.count_eq⟩
  simp [read_reference_from_text, hh, refLoop_ok hr, Except.map]

/-- Claim C8, witness: a header line, two numeric lines, and a trailing blank
line that is skipped. -/
theorem read_reference_tolerant_skip_witness :
    read_reference_from_text ["DOC x".toList, "5".toList, "7".toList, "".toList]
      = .ok ([(5 : ℚ), 7], "DOC".toList)
    ∧ ([(5 : ℚ), 7]).length
        = (["5".toList, "7".toList, "".toList].filter
            (fun l => !(pySplit l).isEmpty)).length := by
  refine read_reference_tolerant_skip
    (by decide : pySplit "DOC x".toList = "DOC".toList :: ["x".toList]) ?_
  refine RefOk.val
    (by decide : pySplit "5".toList = "5".toList :: [])
    (by decide : pyFloat "5".toList = some 5) ?_
  refine RefOk.val
    (by decide : pySplit "7".toList = "7".toList :: [])
    (by decide : pyFloat "7".toList = some 7) ?_
  exact RefOk.skip (by decide) .nil

/-! ### Claims about the dataset aggregators -/

lemma getD_append_self {α : Type} (pre : List α) (p : α) (ps : List α) (d : α) :
    (pre ++ p :: ps).getD pre.length d = p := by
  induction pre with
  | nil => rfl
  | cons a as ih => simpa using ih

lemma set_append_self {α : Type} (pre : List α) (p : α) (ps : List α) (v : α) :
    (pre ++ p :: ps).set pre.length v = pre ++ v :: ps := by
  induction pre with
  | nil => rfl
  | cons a as ih => simp [ih]

lemma matDims_zerosM {r c : ℕ} (h : 0 < r) : matDims (zerosM r c) = (r, c) := by
  cases r with
  | zero => omega
  | succ n => simp [zerosM, matDims, List.replicate_succ]

/-- A step of the aggregation loop on a file sharing the running grids: both
interval comparisons tie, no branch fires, and the intensity is inserted
as-is. -/
lemma eemDatasetStep_identity {gex gem : List ℚ} (stack : List Mat) (n : ℕ)
    (f : EEMFile) (hex : f.ex = gex) (hem : f.em = gem)
    (hdims : matDims f.intensity = (gex.length, gem.length))
    (hslot : matDims (stack.getD n []) = (gex.length, gem.length)) :
    eemDatasetStep true stack gem gex n f = (stack.set n f.intensity, gem, gex, 0) := by
  simp only [List.getD, List.get?_eq_getElem?] at hslot
  simp [eemDatasetStep, hex, hem, hdims, hslot, lt_irrefl]

/-- The aggregation loop on files sharing the running grids writes each file's
intensity into its slot and changes nothing else. -/
lemma eemDatasetLoop_identity {gex gem : List ℚ} (fs : List EEMFile) :
    ∀ (pre post : List Mat) (cnt : ℕ),
    (∀ f ∈ fs, f.ex = gex ∧ f.em = gem ∧
      matDims f.intensity = (gex.length, gem.length)) →
    (∀ s ∈ post, matDims s = (gex.length, gem.length)) →
    post.length = fs.length →
    eemDatasetLoop true fs pre.length (pre ++ post) gem gex cnt
      = (pre ++ fs.map (fun f => f.intensity), gex, gem, cnt) := by
  induction fs with
  | nil =>
    intro pre post cnt _ _ hlen
    have hpost : post = [] := List.eq_nil_of_length_eq_zero (by simpa using hlen)
    subst hpost
    simp [eemDatasetLoop]
  | cons f fs ih =>
    intro pre post cnt hall hpost hlen
    obtain ⟨p, ps, rfl⟩ : ∃ p ps, post = p :: ps := by
      cases post with
      | nil => simp at hlen
      | cons p ps => exact ⟨p, ps, rfl⟩
    obtain ⟨hex, hem, hdims⟩ := hall f (by simp)
    have hstep := eemDatasetStep_identity (pre ++ p :: ps) pre.length f hex hem hdims
      (by rw [getD_append_self]; exact hpost p (by simp))
    simp only [eemDatasetLoop, hstep, set_append_self]
    have := ih (pre ++ [f.intensity]) ps cnt
      (fun g hg => hall g (by simp [hg]))
      (fun s hs => hpost s (by simp [hs]))
      (by simpa using Nat.succ_injective (by simpa using hlen))
    simpa [List.append_assoc] using this

/-- Claim C5: aggregating files that all share one identical `(ex, em)` grid
(each intensity of the matching shape) performs zero `eem_interpolation`
calls and returns the original per-file intensities stacked unchanged, with
the shared grids. -/
theorem read_eem_dataset_identity_on_common_grid {f0 : EEMFile}
    {rest : List EEMFile} {gex gem : List ℚ}
    (hall : ∀ f ∈ f0 :: rest, f.ex = gex ∧ f.em = gem ∧
      matDims f.intensity = (gex.length, gem.length))
    (hpos : 0 < gex.length) :
    read_eem_dataset (f0 :: rest) true
      = .ok ((f0 :: rest).map (fun f => f.intensity), gex, gem, 0) := by
  obtain ⟨hex0, hem0, hdims0⟩ := hall f0 (by simp)
  have hloop := eemDatasetLoop_identity rest [f0.intensity]
    (List.replicate rest.length (zerosM gex.length gem.length)) 0
    (fun g hg => hall g (by simp [hg]))
    (fun s hs => by rw [List.eq_of_mem_replicate hs]; exact matDims_zerosM hpos)
    (by simp)
  simp only [read_eem_dataset, hdims0, List.replicate_succ, List.set_cons_zero,
    hex0, hem0]
  simpa using hloop

/-- Claim C5, witness: two files on the common grids `[200, 210]` (ex) and
`[500, 501]` (em). -/
theorem read_eem_dataset_identity_on_common_grid_witness :
    read_eem_dataset [⟨[[1, 2], [3, 4]], [200, 210], [500, 501]⟩,
        ⟨[[5, 6], [7, 8]], [200, 210], [500, 501]⟩] true
      = .ok ([[[1, 2], [3, 4]], [[5, 6], [7, 8]]], [200, 210], [500, 501], 0) := by
  have h := read_eem_dataset_identity_on_common_grid
    (by decide : ∀ f ∈ [(⟨[[1, 2], [3, 4]], [200, 210], [500, 501]⟩ : EEMFile),
        (⟨[[5, 6], [7, 8]], [200, 210], [500, 501]⟩ : EEMFile)],
      f.ex = [200, 210] ∧ f.em = [500, 501] ∧
        matDims f.intensity = (([(200 : ℚ), 210]).length, ([(500 : ℚ), 501]).length))
    (by decide)
  simpa using h

lemma foldl_min_le_init (l : List ℚ) : ∀ a : ℚ, l.foldl min a ≤ a := by
  induction l with
  | nil => intro a; simp
  | cons x xs ih => intro a; exact le_trans (ih (min a x)) (min_le_left a x)

lemma foldl_min_le_mem (l : List ℚ) : ∀ a : ℚ, ∀ t ∈ l, l.foldl min a ≤ t := by
  induction l with
  | nil => simp
  | cons x xs ih =>
    intro a t ht
    rcases List.mem_cons.mp ht with rfl | ht
    · exact le_trans (foldl_min_le_init xs (min a t)) (min_le_right a t)
    · exact ih (min a x) t ht

lemma minQ_le_of_mem {l : List ℚ} {t : ℚ} (h : t ∈ l) : minQ l ≤ t := by
  cases l with
  | nil => simp at h
  | cons x xs =>
    rcases List.mem_cons.mp h with rfl | h
    · exact foldl_min_le_init xs t
    · exact foldl_min_le_mem xs x t h

lemma le_foldl_max_init (l : List ℚ) : ∀ a : ℚ, a ≤ l.foldl max a := by
  induction l with
  | nil => intro a; simp
  | cons x xs ih => intro a; exact le_trans (le_max_left a x) (ih (max a x))

lemma le_foldl_max_mem (l : List ℚ) : ∀ a : ℚ, ∀ t ∈ l, t ≤ l.foldl max a := by
  induction l with
  | nil => simp
  | cons x xs ih =>
    intro a t ht
    rcases List.mem_cons.mp ht with rfl | ht
    · exact le_trans (le_max_right a t) (le_foldl_max_init xs (max a t))
    · exact ih (max a x) t ht

lemma le_maxQ_of_mem {l : List ℚ} {t : ℚ} (h : t ∈ l) : t ≤ maxQ l := by
  cases l with
  | nil => simp at h
  | cons x xs =>
    rcases List.mem_cons.mp h with rfl | h
    · exact le_foldl_max_init xs t
    · exact le_foldl_max_mem xs x t h

lemma forall_mem_set {α : Type} {P : α → Prop} {l : List α} {v : α}
    (h : ∀ s ∈ l, P s) (hv : P v) (n : ℕ) : ∀ s ∈ l.set n v, P s :=
  fun s hs => (List.mem_or_eq_of_mem_set hs).elim (h s) (fun he => he ▸ hv)

lemma matDims_eem_interpolation (m : Mat) (a b c : List ℚ) {d : List ℚ}
    (hd : d ≠ []) :
    matDims (eem_interpolation m a b c d) = (d.length, c.length) := by
  obtain ⟨x, xs, rfl⟩ := List.exists_cons_of_ne_nil hd
  simp [eem_interpolation, matDims]

lemma dims_process_eem_stack (stack : List Mat) (a b c : List ℚ) {d : List ℚ}
    (hd : d ≠ []) :
    ∀ s ∈ process_eem_stack stack a b c d, matDims s = (d.length, c.length) := by
  intro s hs
  simp only [process_eem_stack, List.mem_map] at hs
  obtain ⟨t, -, rfl⟩ := hs
  exact matDims_eem_interpolation t a b c hd

/-- One aligned aggregation step, under per-axis concordance (no file strictly
coarser on one axis and strictly finer on the other than the running grid) and
ties sharing grids: the updated running grids are one input's grid pair, of
minimal interval on each axis, and every slice of the updated stack has the
shape given by the updated grids. -/
lemma eemDatasetStep_shape (n : ℕ) {stack : List Mat} {em_old ex_old : List ℚ}
    {f : EEMFile}
    (hdims : matDims f.intensity = (f.ex.length, f.em.length))
    (hslices : ∀ s ∈ stack, matDims s = (ex_old.length, em_old.length))
    (hfpos : f.ex ≠ []) (hopos : ex_old ≠ [])
    (hc1 : interval f.em < interval em_old → interval f.ex ≤ interval ex_old)
    (hc2 : interval f.ex < interval ex_old → interval f.em ≤ interval em_old)
    (htiem : interval f.em = interval em_old → f.em = em_old)
    (htiex : interval f.ex = interval ex_old → f.ex = ex_old) :
    ∃ st em2 ex2 c, eemDatasetStep true stack em_old ex_old n f = (st, em2, ex2, c)
      ∧ ((em2 = em_old ∧ ex2 = ex_old) ∨ (em2 = f.em ∧ ex2 = f.ex))
      ∧ interval em2 ≤ interval em_old ∧ interval em2 ≤ interval f.em
      ∧ interval ex2 ≤ interval ex_old ∧ interval ex2 ≤ interval f.ex
      ∧ (∀ s ∈ st, matDims s = (ex2.length, em2.length))
      ∧ st.length = stack.length := by
  rcases lt_trichotomy (interval f.em) (interval em_old) with hem | hem | hem <;>
    rcases lt_trichotomy (interval f.ex) (interval ex_old) with hex | hex | hex
  · -- (<, <): rebuild the stack onto the new (finer on both axes) grids
    have d1 : decide (interval em_old < interval f.em) = false :=
      decide_eq_false (not_lt.mpr hem.le)
    have d2 : decide (interval ex_old < interval f.ex) = false :=
      decide_eq_false (not_lt.mpr hex.le)
    have d3 : decide (interval f.em < interval em_old) = true := decide_eq_true hem
    refine ⟨_, _, _, _, rfl, ?_⟩
    simp only [eemDatasetStep, d1, d2, d3, Bool.false_or, Bool.or_false,
      Bool.false_or, if_false, Bool.or_true, Bool.true_or, if_true,
      Bool.false_eq_true, ite_false, ite_true]
    have hall2 := dims_process_eem_stack stack em_old ex_old.reverse f.em
      (show f.ex.reverse ≠ [] by simpa using hfpos)
    simp only [List.length_reverse] at hall2
    refine ⟨Or.inr (by simp), hem.le, le_rfl, hex.le, le_rfl, ?_, ?_⟩
    · split
      · exact forall_mem_set hall2 (by rw [hdims]) n
      · exact hall2
    · split <;> simp [process_eem_stack]
  · -- (<, =): finer emission, tied excitation
    have d1 : decide (interval em_old < interval f.em) = false :=
      decide_eq_false (not_lt.mpr hem.le)
    have d2 : decide (interval ex_old < interval f.ex) = false :=
      decide_eq_false (not_lt.mpr hex.le)
    have d3 : decide (interval f.em < interval em_old) = true := decide_eq_true hem
    have d4 : decide (interval f.ex < interval ex_old) = false :=
      decide_eq_false (not_lt.mpr hex.ge)
    refine ⟨_, _, _, _, rfl, ?_⟩
    simp only [eemDatasetStep, d1, d2, d3, d4, Bool.false_or, Bool.or_false,
      if_false, Bool.true_or, if_true, Bool.false_eq_true, ite_false, ite_true]
    have hall2 := dims_process_eem_stack stack em_old ex_old.reverse f.em
      (show f.ex.reverse ≠ [] by simpa using hfpos)
    simp only [List.length_reverse] at hall2
    refine ⟨Or.inr (by simp), hem.le, le_rfl, hex.le, le_rfl, ?_, ?_⟩
    · split
      · exact forall_mem_set hall2 (by rw [hdims]) n
      · exact hall2
    · split <;> simp [process_eem_stack]
  · -- (<, >): excluded by concordance
    exact absurd (hc1 hem) (not_le.mpr hex)
  · -- (=, <): tied emission, finer excitation
    have d1 : decide (interval em_old < interval f.em) = false :=
      decide_eq_false (not_lt.mpr hem.le)
    have d2 : decide (interval ex_old < interval f.ex) = false :=
      decide_eq_false (not_lt.mpr hex.le)
    have d3 : decide (interval f.em < interval em_old) = false :=
      decide_eq_false (not_lt.mpr hem.ge)
    have d4 : decide (interval f.ex < interval ex_old) = true := decide_eq_true hex
    refine ⟨_, _, _, _, rfl, ?_⟩
    simp only [eemDatasetStep, d1, d2, d3, d4, Bool.false_or, Bool.or_false,
      if_false, Bool.or_true, if_true, Bool.false_eq_true, ite_false, ite_true]
    have hall2 := dims_process_eem_stack stack em_old ex_old.reverse f.em
      (show f.ex.reverse ≠ [] by simpa using hfpos)
    simp only [List.length_reverse] at hall2
    refine ⟨Or.inr (by simp), hem.le, le_rfl, hex.le, le_rfl, ?_, ?_⟩
    · split
      · exact forall_mem_set hall2 (by rw [hdims]) n
      · exact hall2
    · split <;> simp [process_eem_stack]
  · -- (=, =): both tied — nothing fires, plain insertion
    have d1 : decide (interval em_old < interval f.em) = false :=
      decide_eq_false (not_lt.mpr hem.le)
    have d2 : decide (interval ex_old < interval f.ex) = false :=
      decide_eq_false (not_lt.mpr hex.le)
    have d3 : decide (interval f.em < interval em_old) = false :=
      decide_eq_false (not_lt.mpr hem.ge)
    have d4 : decide (interval f.ex < interval ex_old) = false :=
      decide_eq_false (not_lt.mpr hex.ge)
    refine ⟨_, _, _, _, rfl, ?_⟩
    simp only [eemDatasetStep, d1, d2, d3, d4, Bool.or_self, if_false,
      Bool.false_eq_true, ite_false]
    have hgem := htiem hem
    have hgex := htiex hex
    refine ⟨Or.inr (by simp), hem.le, le_rfl, hex.le, le_rfl, ?_, ?_⟩
    · have hall2 : ∀ s ∈ stack, matDims s = (f.ex.length, f.em.length) := by
        intro s hs; rw [hgem, hgex]; exact hslices s hs
      split
      · exact forall_mem_set hall2 (by rw [hdims]) n
      · exact hall2
    · split <;> simp
  · -- (=, >): tied emission, coarser excitation — upsample the new file
    have d1 : decide (interval em_old < interval f.em) = false :=
      decide_eq_false (not_lt.mpr hem.le)
    have d2 : decide (interval ex_old < interval f.ex) = true := decide_eq_true hex
    have d3 : decide (interval f.em < interval em_old) = false :=
      decide_eq_false (not_lt.mpr hem.ge)
    have d4 : decide (interval f.ex < interval ex_old) = false :=
      decide_eq_false (not_lt.mpr hex.le)
    refine ⟨_, _, _, _, rfl, ?_⟩
    simp only [eemDatasetStep, d1, d2, d3, d4, Bool.false_or, Bool.or_false,
      Bool.or_true, if_true, if_false, Bool.false_eq_true, ite_false, ite_true]
    have hgem := htiem hem
    refine ⟨Or.inl (by simp), le_rfl, hem.ge, le_rfl, hex.le, ?_, ?_⟩
    · have hint : matDims (eem_interpolation f.intensity f.em f.ex.reverse f.em
          ex_old.reverse) = (ex_old.length, f.em.length) := by
        rw [matDims_eem_interpolation _ _ _ _ (by simpa using hopos)]
        simp
      have hall2 : ∀ s ∈ stack, matDims s = (ex_old.length, em_old.length) := hslices
      split
      · refine forall_mem_set hall2 ?_ n
        rw [hint, hgem]
      · exact hall2
    · split <;> simp
  · -- (>, <): excluded by concordance
    exact absurd (hc2 hex) (not_le.mpr hem)
  · -- (>, =): coarser emission, tied excitation — upsample the new file
    have d1 : decide (interval em_old < interval f.em) = true := decide_eq_true hem
    have d2 : decide (interval ex_old < interval f.ex) = false :=
      decide_eq_false (not_lt.mpr hex.le)
    have d3 : decide (interval f.em < interval em_old) = false :=
      decide_eq_false (not_lt.mpr hem.le)
    have d4 : decide (interval f.ex < interval ex_old) = false :=
      decide_eq_false (not_lt.mpr hex.ge)
    refine ⟨_, _, _, _, rfl, ?_⟩
    simp only [eemDatasetStep, d1, d2, d3, d4, Bool.true_or, Bool.or_false,
      Bool.or_self, if_true, if_false, Bool.false_eq_true, ite_false, ite_true]
    have hgex := htiex hex
    refine ⟨Or.inl (by simp), le_rfl, hem.le, le_rfl, hex.ge, ?_, ?_⟩
    · have hint : matDims (eem_interpolation f.intensity f.em f.ex.reverse em_old
          f.ex.reverse) = (f.ex.length, em_old.length) := by
        rw [matDims_eem_interpolation _ _ _ _ (by simpa using hfpos)]
        simp
      split
      · refine forall_mem_set hslices ?_ n
        rw [hint, hgex]
      · exact hslices
    · split <;> simp
  · -- (>, >): coarser on both axes — upsample the new file onto the old grids
    have d1 : decide (interval em_old < interval f.em) = true := decide_eq_true hem
    have d2 : decide (interval ex_old < interval f.ex) = true := decide_eq_true hex
    have d3 : decide (interval f.em < interval em_old) = false :=
      decide_eq_false (not_lt.mpr hem.le)
    have d4 : decide (interval f.ex < interval ex_old) = false :=
      decide_eq_false (not_lt.mpr hex.le)
    refine ⟨_, _, _, _, rfl, ?_⟩
    simp only [eemDatasetStep, d1, d2, d3, d4, Bool.true_or, Bool.or_self,
      if_true, if_false, Bool.false_eq_true, ite_false, ite_true]
    refine ⟨Or.inl (by simp), le_rfl, hem.le, le_rfl, hex.le, ?_, ?_⟩
    · have hint : matDims (eem_interpolation f.intensity f.em f.ex.reverse em_old
          ex_old.reverse) = (ex_old.length, em_old.length) := by
        rw [matDims_eem_interpolation _ _ _ _ (by simpa using hopos)]
        simp
      split
      · exact forall_mem_set hslices (by rw [hint]) n
      · exact hslices
    · split <;> simp

/-- The aligned aggregation loop, under pairwise concordance over a fixed file
pool: the final running grids are one pool file's grid pair, of interval no
larger than the initial running grids' and than every remaining file's, and
the final stack is made of slices shaped by the final grids. -/
lemma eemDatasetLoop_shape {files : List EEMFile}
    (hconc : ∀ f ∈ files, ∀ g ∈ files,
      (interval f.em < interval g.em → interval f.ex ≤ interval g.ex) ∧
      (interval f.ex < interval g.ex → interval f.em ≤ interval g.em) ∧
      (interval f.em = interval g.em → f.em = g.em) ∧
      (interval f.ex = interval g.ex → f.ex = g.ex))
    (hmem : ∀ f ∈ files, matDims f.intensity = (f.ex.length, f.em.length) ∧
      f.ex ≠ []) :
    ∀ (fs : List EEMFile), (∀ f ∈ fs, f ∈ files) →
    ∀ (g : EEMFile), g ∈ files →
    ∀ (stack : List Mat) (n cnt : ℕ),
    (∀ s ∈ stack, matDims s = (g.ex.length, g.em.length)) →
    ∃ st exF emF c, eemDatasetLoop true fs n stack g.em g.ex cnt
      = (st, exF, emF, c)
      ∧ (∃ h ∈ files, h.em = emF ∧ h.ex = exF)
      ∧ interval emF ≤ interval g.em ∧ interval exF ≤ interval g.ex
      ∧ (∀ f ∈ fs, interval emF ≤ interval f.em ∧ interval exF ≤ interval f.ex)
      ∧ (∀ s ∈ st, matDims s = (exF.length, emF.length))
      ∧ st.length = stack.length := by
  intro fs
  induction fs with
  | nil =>
    intro _ g hg stack n cnt hslices
    exact ⟨stack, g.ex, g.em, cnt, rfl, ⟨g, hg, rfl, rfl⟩, le_rfl, le_rfl,
      by simp, hslices, rfl⟩
  | cons f fs' ih =>
    intro hfs g hg stack n cnt hslices
    have hf : f ∈ files := hfs f (by simp)
    obtain ⟨hcem, hcex, htiem, htiex⟩ := hconc f hf g hg
    obtain ⟨hdf, hfex⟩ := hmem f hf
    obtain ⟨-, hgex⟩ := hmem g hg
    obtain ⟨st1, em2, ex2, c1, hstep, hpair, hle1, hle2, hle3, hle4, hsl1, hln1⟩ :=
      eemDatasetStep_shape n hdf hslices hfex hgex hcem hcex htiem htiex
    rcases hpair with ⟨he1, he2⟩ | ⟨he1, he2⟩
    · subst he1; subst he2
      obtain ⟨st, exF, emF, c, hloop, hh, hm1, hm2, hm3, hsl, hln⟩ :=
        ih (fun x hx => hfs x (by simp [hx])) g hg st1 (n + 1) (cnt + c1) hsl1
      refine ⟨st, exF, emF, c, ?_, hh, hm1, hm2, ?_, hsl, hln.trans hln1⟩
      · simpa [eemDatasetLoop, hstep] using hloop
      · intro x hx
        rcases List.mem_cons.mp hx with rfl | hx
        · exact ⟨hm1.trans hle2, hm2.trans hle4⟩
        · exact hm3 x hx
    · subst he1; subst he2
      obtain ⟨st, exF, emF, c, hloop, hh, hm1, hm2, hm3, hsl, hln⟩ :=
        ih (fun x hx => hfs x (by simp [hx])) f hf st1 (n + 1) (cnt + c1) hsl1
      refine ⟨st, exF, emF, c, ?_, hh, hm1.trans hle1, hm2.trans hle3, ?_,
        hsl, hln.trans hln1⟩
      · simpa [eemDatasetLoop, hstep] using hloop
      · intro x hx
        rcases List.mem_cons.mp hx with rfl | hx
        · exact ⟨hm1.trans hle2, hm2.trans hle4⟩
        · exact hm3 x hx

lemma getD_length {stack : List (List ℚ)} {L : ℕ}
    (h : ∀ r ∈ stack, r.length = L) {n : ℕ} (hn : n < stack.length) :
    (stack.getD n []).length = L := by
  rw [List.getD_eq_getElem stack [] hn]
  exact h _ (List.getElem_mem hn)

/-- The history rebuild of `read_abs_dataset` succeeds on rows matching the
old grid when the new grid stays within the old grid's span, producing rows of
the new width. -/
lemma absRebuildLoop_ok {ex_old ex_new : List ℚ} {width : ℕ}
    (hw : ex_new.length = width) (hlen2 : 2 ≤ ex_old.length)
    (hbound : ∀ t ∈ ex_new, minQ ex_old ≤ t ∧ t ≤ maxQ ex_old) :
    ∀ rows, (∀ row ∈ rows, row.length = ex_old.length) →
    ∃ out, absRebuildLoop ex_old ex_new width rows = .ok out
      ∧ (∀ r ∈ out, r.length = width) ∧ out.length = rows.length := by
  intro rows
  induction rows with
  | nil => exact fun _ => ⟨[], rfl, by simp, rfl⟩
  | cons row rest ih =>
    intro hrows
    obtain ⟨out, hout, hws, hln⟩ := ih (fun r hr => hrows r (by simp [hr]))
    have hinterp : interp1d_eval ex_old row ex_new
        = .ok (ex_new.map (interpVal ex_old row)) := by
      have h1 : ¬ (ex_old.length ≠ row.length ∨ ex_old.length < 2) := by
        push_neg
        exact ⟨(hrows row (by simp)).symm, hlen2⟩
      have h2 : ex_new.any
          (fun t => decide (t < minQ ex_old) || decide (maxQ ex_old < t)) = false := by
        rw [List.any_eq_false]
        intro t ht
        obtain ⟨hb1, hb2⟩ := hbound t ht
        simp [not_lt.mpr hb1, not_lt.mpr hb2]
      simp [interp1d_eval, h1, h2]
    refine ⟨ex_new.map (interpVal ex_old row) :: out, ?_, ?_, by simp [hln]⟩
    · simp only [absRebuildLoop, hinterp]
      rw [if_pos (by simp [hw])]
      simp [hout, Except.map]
    · intro r hr
      rcases List.mem_cons.mp hr with rfl | hr
      · simp [hw]
      · exact hws r hr

/-- The `read_abs_dataset` loop under non-increasing intervals along the file
order (ties sharing the grid) and a common span: the final grid is one of the
files' grids, minimal in interval, and every stack row has its length. -/
lemma absDatasetLoop_min {m0 M0 : ℚ} (N : ℕ) :
    ∀ (fs : List AbsFile) (prev : AbsFile) (stack : List (List ℚ)) (n : ℕ),
    List.Chain (fun f g => interval g.ex ≤ interval f.ex ∧
        (interval g.ex = interval f.ex → g.ex = f.ex)) prev fs →
    (∀ f ∈ prev :: fs, minQ f.ex = m0 ∧ maxQ f.ex = M0 ∧
        f.absorbance.length = f.ex.length ∧ 2 ≤ f.ex.length) →
    (∀ row ∈ stack, row.length = prev.ex.length) →
    stack.length = N → n + fs.length = N →
    ∃ st exF, absDatasetLoop true N fs n stack prev.ex = .ok (st, exF)
      ∧ (∃ h ∈ prev :: fs, h.ex = exF)
      ∧ interval exF ≤ interval prev.ex
      ∧ (∀ f ∈ fs, interval exF ≤ interval f.ex)
      ∧ (∀ row ∈ st, row.length = exF.length)
      ∧ st.length = N := by
  intro fs
  induction fs with
  | nil =>
    intro prev stack n _ _ hrows hsl _
    exact ⟨stack, prev.ex, rfl, ⟨prev, by simp, rfl⟩, le_rfl, by simp,
      hrows, hsl⟩
  | cons f fs' ih =>
    intro prev stack n hchain hspans hrows hsl hcap
    obtain ⟨⟨hle, htie⟩, hchain'⟩ := List.chain_cons.mp hchain
    have hn : n < N := by
      simp only [List.length_cons] at hcap
      omega
    obtain ⟨hm0p, hM0p, halp, hlen2p⟩ := hspans prev (by simp)
    obtain ⟨hm0f, hM0f, half, hlen2f⟩ := hspans f (by simp)
    have hd1 : decide (interval prev.ex < interval f.ex) = false :=
      decide_eq_false (not_lt.mpr hle)
    rcases lt_or_eq_of_le hle with hlt | heq
    · -- strictly finer: rebuild the history onto the new grid
      have hd2 : decide (interval f.ex < interval prev.ex) = true :=
        decide_eq_true hlt
      obtain ⟨out, hout, hws, holn⟩ :=
        absRebuildLoop_ok half.symm hlen2p
          (fun t ht => ⟨hm0p ▸ (hm0f ▸ minQ_le_of_mem ht),
            hM0p ▸ (hM0f ▸ le_maxQ_of_mem ht)⟩)
          (stack.take n) (fun r hr => hrows r (List.mem_of_mem_take hr))
      have hstack2 : ∀ r ∈ out ++ List.replicate (N - n)
          (List.replicate f.absorbance.length (0 : ℚ)),
          r.length = f.absorbance.length := by
        intro r hr
        rcases List.mem_append.mp hr with hr | hr
        · exact hws r hr
        · simp [List.eq_of_mem_replicate hr]
      have hlen2' : (out ++ List.replicate (N - n)
          (List.replicate f.absorbance.length (0 : ℚ))).length = N := by
        simp only [List.length_append, List.length_replicate, holn,
          List.length_take, hsl]
        omega
      have hslot : ((out ++ List.replicate (N - n)
          (List.replicate f.absorbance.length (0 : ℚ))).getD n []).length
          = f.absorbance.length :=
        getD_length hstack2 (by rw [hlen2']; exact hn)
      have hrows' : ∀ r ∈ (out ++ List.replicate (N - n)
          (List.replicate f.absorbance.length (0 : ℚ))).set n f.absorbance,
          r.length = f.ex.length := by
        intro r hr
        rcases List.mem_or_eq_of_mem_set hr with hr | rfl
        · rw [hstack2 r hr, half]
        · exact half
      obtain ⟨st, exF, hloop, hh, hminp, hmins, hws2, hsl2⟩ :=
        ih f _ (n + 1) hchain'
          (fun x hx => hspans x (List.mem_cons_of_mem prev hx))
          hrows'
          (by simp [hlen2'])
          (by simp only [List.length_cons] at hcap; omega)
      refine ⟨st, exF, ?_, ?_, hminp.trans hle, ?_, hws2, hsl2⟩
      · simp only [absDatasetLoop, absDatasetStep, hd1, hd2, if_true, if_false,
          Bool.false_eq_true, ite_false, ite_true, hout]
        rw [if_pos (by rw [hslot])]
        exact hloop
      · rcases hh with ⟨h, hhm, hhe⟩
        exact ⟨h, List.mem_cons_of_mem prev hhm, hhe⟩
      · intro x hx
        rcases List.mem_cons.mp hx with rfl | hx
        · exact hminp
        · exact hmins x hx
    · -- tied interval, identical grid: plain insertion
      have hgr : f.ex = prev.ex := htie heq
      have hd2 : decide (interval f.ex < interval prev.ex) = false :=
        decide_eq_false (not_lt.mpr heq.ge)
      have hslot : ((stack.getD n [])).length = prev.ex.length :=
        getD_length hrows (by rw [hsl]; exact hn)
      have hrows' : ∀ r ∈ stack.set n f.absorbance, r.length = f.ex.length := by
        intro r hr
        rcases List.mem_or_eq_of_mem_set hr with hr | rfl
        · rw [hrows r hr, hgr]
        · exact half
      obtain ⟨st, exF, hloop, hh, hminp, hmins, hws2, hsl2⟩ :=
        ih f _ (n + 1) hchain'
          (fun x hx => hspans x (List.mem_cons_of_mem prev hx))
          hrows'
          (by simp [hsl])
          (by simp only [List.length_cons] at hcap; omega)
      refine ⟨st, exF, ?_, ?_, hminp.trans heq.le, ?_, hws2, hsl2⟩
      · have hcond : f.absorbance.length = (stack.getD n []).length := by
          rw [hslot, half, hgr]
        simp only [absDatasetLoop, absDatasetStep, hd1, hd2]
        simpa [hcond] using hloop
      · rcases hh with ⟨h, hhm, hhe⟩
        exact ⟨h, List.mem_cons_of_mem prev hhm, hhe⟩
      · intro x hx
        rcases List.mem_cons.mp hx with rfl | hx
        · exact hminp
        · exact hmins x hx

/-- Claim C1, counterexample: two EEM files on a shared excitation grid, the
second with the coarser emission grid `[500, 502]` (interval 2 against 1).
The claim says the returned common emission grid has the maximal interval
over the inputs; the code instead keeps the finer grid `[500, 501, 502]` of
interval 1 (its own docstring says "smallest intervals"). -/
theorem read_eem_dataset_not_coarsest :
    (read_eem_dataset [⟨[[1, 2, 3], [4, 5, 6]], [200, 210], [500, 501, 502]⟩,
        ⟨[[1, 2], [3, 4]], [200, 210], [500, 502]⟩] true).map
        (fun r => (r.2.1, r.2.2.1))
      = .ok ([200, 210], [500, 501, 502])
    ∧ interval [(500 : ℚ), 501, 502]
        ≠ max (interval [(500 : ℚ), 501, 502]) (interval [(500 : ℚ), 502]) := by
  have h1 : interval [(500 : ℚ), 501, 502] = 1 := by norm_num [interval, maxQ, minQ]
  have h2 : interval [(500 : ℚ), 502] = 2 := by norm_num [interval, maxQ, minQ]
  constructor
  · have hc1 : decide (interval [(500 : ℚ), 501, 502] < interval [(500 : ℚ), 502])
        = true := by
      rw [h1, h2]; exact decide_eq_true (by norm_num)
    have hc2 : decide (interval [(200 : ℚ), 210] < interval [(200 : ℚ), 210])
        = false := decide_eq_false (lt_irrefl _)
    have hc3 : decide (interval [(500 : ℚ), 502] < interval [(500 : ℚ), 501, 502])
        = false := by
      rw [h1, h2]; exact decide_eq_false (by norm_num)
    simp [read_eem_dataset, eemDatasetLoop, eemDatasetStep, hc1, hc2, hc3,
      matDims, zerosM, eem_interpolation, Except.map]
  · rw [h1, h2]
    norm_num

/-- Claim C1 (amended): with `wavelength_alignment`, the grids converge on
the finest sampling, not the coarsest.  For `read_eem_dataset` — provided the
files' per-axis coarseness orderings are concordant (no file strictly coarser
on one axis and strictly finer on the other than another file), files tying
on an axis share that axis's grid, and each intensity has its grids' shape —
the returned pair of grids is one input file's pair whose interval on each
axis is the minimum over all inputs, and every slice of the returned stack has
shape (len ex, len em) of that common pair.  For `read_abs_dataset` the
running grid is always the latest file's, so under intervals non-increasing
along the file order (ties sharing the grid) and a common span, the returned
excitation grid is an input grid of minimal interval and every stack row has
its length. -/
theorem dataset_alignment_finest_grid :
    (∀ (f0 : EEMFile) (rest : List EEMFile),
      (∀ f ∈ f0 :: rest, ∀ g ∈ f0 :: rest,
        (interval f.em < interval g.em → interval f.ex ≤ interval g.ex) ∧
        (interval f.ex < interval g.ex → interval f.em ≤ interval g.em) ∧
        (interval f.em = interval g.em → f.em = g.em) ∧
        (interval f.ex = interval g.ex → f.ex = g.ex)) →
      (∀ f ∈ f0 :: rest, matDims f.intensity = (f.ex.length, f.em.length) ∧
        f.ex ≠ []) →
      ∃ st exF emF c, read_eem_dataset (f0 :: rest) true = .ok (st, exF, emF, c)
        ∧ (∃ h ∈ f0 :: rest, h.em = emF ∧ h.ex = exF)
        ∧ (∀ f ∈ f0 :: rest,
            interval emF ≤ interval f.em ∧ interval exF ≤ interval f.ex)
        ∧ (∀ s ∈ st, matDims s = (exF.length, emF.length))
        ∧ st.length = (f0 :: rest).length)
    ∧
    (∀ (a0 : AbsFile) (arest : List AbsFile) (m0 M0 : ℚ),
      List.Chain (fun f g => interval g.ex ≤ interval f.ex ∧
        (interval g.ex = interval f.ex → g.ex = f.ex)) a0 arest →
      (∀ f ∈ a0 :: arest, minQ f.ex = m0 ∧ maxQ f.ex = M0 ∧
        f.absorbance.length = f.ex.length ∧ 2 ≤ f.ex.length) →
      ∃ st exF, read_abs_dataset (a0 :: arest) true = .ok (st, exF)
        ∧ (∃ h ∈ a0 :: arest, h.ex = exF)
        ∧ (∀ f ∈ a0 :: arest, interval exF ≤ interval f.ex)
        ∧ (∀ row ∈ st, row.length = exF.length)
        ∧ st.length = (a0 :: arest).length) := by
  constructor
  · intro f0 rest hconc hmem
    obtain ⟨hd0, hx0⟩ := hmem f0 (by simp)
    have hpos0 : 0 < f0.ex.length := List.length_pos.mpr hx0
    have hzdims : ∀ s ∈ (List.replicate (rest.length + 1)
        (zerosM f0.ex.length f0.em.length)).set 0 f0.intensity,
        matDims s = (f0.ex.length, f0.em.length) := by
      intro s hs
      rcases List.mem_or_eq_of_mem_set hs with hs | rfl
      · rw [List.eq_of_mem_replicate hs]; exact matDims_zerosM hpos0
      · exact hd0
    obtain ⟨st, exF, emF, c, hloop, hh, hm1, hm2, hmins, hsl, hln⟩ :=
      eemDatasetLoop_shape hconc hmem rest (fun x hx => by simp [hx]) f0 (by simp)
        ((List.replicate (rest.length + 1) (zerosM f0.ex.length f0.em.length)).set 0
          f0.intensity) 1 0 hzdims
    refine ⟨st, exF, emF, c, ?_, hh, ?_, hsl, by simpa using hln⟩
    · simp only [read_eem_dataset, hd0]
      exact congrArg Except.ok hloop
    · intro f hf
      rcases List.mem_cons.mp hf with rfl | hf
      · exact ⟨hm1, hm2⟩
      · exact hmins f hf
  · intro a0 arest m0 M0 hchain hspans
    obtain ⟨hm00, hM00, hal0, hlen20⟩ := hspans a0 (by simp)
    have hrows0 : ∀ row ∈ (List.replicate (arest.length + 1)
        (List.replicate a0.absorbance.length (0 : ℚ))).set 0 a0.absorbance,
        row.length = a0.ex.length := by
      intro r hr
      rcases List.mem_or_eq_of_mem_set hr with hr | rfl
      · rw [List.eq_of_mem_replicate hr]; simp [hal0]
      · exact hal0
    obtain ⟨st, exF, hloop, hh, hm1, hmins, hws, hsl⟩ :=
      absDatasetLoop_min (arest.length + 1) arest a0
        ((List.replicate (arest.length + 1)
          (List.replicate a0.absorbance.length (0 : ℚ))).set 0 a0.absorbance) 1
        hchain hspans hrows0 (by simp) (by omega)
    refine ⟨st, exF, ?_, hh, ?_, hws, by simpa using hsl⟩
    · exact hloop
    · intro f hf
      rcases List.mem_cons.mp hf with rfl | hf
      · exact hm1
      · exact hmins f hf

/-- Claim C1, witness: a two-file EEM dataset with a coarser second emission
grid, and a two-file absorbance dataset refining its excitation grid. -/
theorem dataset_alignment_finest_grid_witness :
    (∃ st exF emF c, read_eem_dataset
        [(⟨[[1, 2, 3], [4, 5, 6]], [200, 210], [500, 501, 502]⟩ : EEMFile),
         ⟨[[1, 2], [3, 4]], [200, 210], [500, 502]⟩] true = .ok (st, exF, emF, c)
      ∧ (∃ h ∈ [(⟨[[1, 2, 3], [4, 5, 6]], [200, 210], [500, 501, 502]⟩ : EEMFile),
           ⟨[[1, 2], [3, 4]], [200, 210], [500, 502]⟩], h.em = emF ∧ h.ex = exF)
      ∧ (∀ f ∈ [(⟨[[1, 2, 3], [4, 5, 6]], [200, 210], [500, 501, 502]⟩ : EEMFile),
           ⟨[[1, 2], [3, 4]], [200, 210], [500, 502]⟩],
          interval emF ≤ interval f.em ∧ interval exF ≤ interval f.ex)
      ∧ (∀ s ∈ st, matDims s = (exF.length, emF.length))
      ∧ st.length = ([(⟨[[1, 2, 3], [4, 5, 6]], [200, 210], [500, 501, 502]⟩ : EEMFile),
           ⟨[[1, 2], [3, 4]], [200, 210], [500, 502]⟩]).length)
    ∧
    (∃ st exF, read_abs_dataset
        [(⟨[1, 2], [400, 420]⟩ : AbsFile), ⟨[5, 6, 7], [400, 410, 420]⟩] true
        = .ok (st, exF)
      ∧ (∃ h ∈ [(⟨[1, 2], [400, 420]⟩ : AbsFile), ⟨[5, 6, 7], [400, 410, 420]⟩],
          h.ex = exF)
      ∧ (∀ f ∈ [(⟨[1, 2], [400, 420]⟩ : AbsFile), ⟨[5, 6, 7], [400, 410, 420]⟩],
          interval exF ≤ interval f.ex)
      ∧ (∀ row ∈ st, row.length = exF.length)
      ∧ st.length = ([(⟨[1, 2], [400, 420]⟩ : AbsFile),
          ⟨[5, 6, 7], [400, 410, 420]⟩]).length) := by
  constructor
  · refine dataset_alignment_finest_grid.1
      ⟨[[1, 2, 3], [4, 5, 6]], [200, 210], [500, 501, 502]⟩
      [⟨[[1, 2], [3, 4]], [200, 210], [500, 502]⟩] ?_ ?_
    · intro f hf g hg
      fin_cases hf <;> fin_cases hg <;>
        norm_num [interval, maxQ, minQ]
    · intro f hf
      fin_cases hf <;> exact ⟨by decide, by decide⟩
  · refine dataset_alignment_finest_grid.2 ⟨[1, 2], [400, 420]⟩
      [⟨[5, 6, 7], [400, 410, 420]⟩] 400 420 ?_ ?_
    · refine List.Chain.cons ⟨?_, ?_⟩ List.Chain.nil
      · norm_num [interval, maxQ, minQ]
      · intro h
        exact absurd h (by norm_num [interval, maxQ, minQ])
    · intro f hf
      fin_cases hf <;>
        refine ⟨?_, ?_, by decide, by decide⟩ <;>
          norm_num [minQ, maxQ, min_def, max_def]

/-! ### Claims about the PARAFAC model reader -/

lemma takeWhile_append_all {p : String → Bool} {xs : List String}
    (hx : ∀ x ∈ xs, p x = true) (ys : List String) :
    (xs ++ ys).takeWhile p = xs ++ ys.takeWhile p := by
  induction xs with
  | nil => simp
  | cons a as ih =>
    simp only [List.cons_append, List.takeWhile_cons, hx a (by simp), if_true]
    rw [ih (fun x hxm => hx x (by simp [hxm]))]

lemma dropWhile_append_all {p : String → Bool} {xs : List String}
    (hx : ∀ x ∈ xs, p x = true) (ys : List String) :
    (xs ++ ys).dropWhile p = ys.dropWhile p := by
  induction xs with
  | nil => simp
  | cons a as ih =>
    simp only [List.cons_append, List.dropWhile_cons, hx a (by simp), if_true]
    exact ih (fun x hxm => hx x (by simp [hxm]))

lemma takeWhile_cons_neg {p : String → Bool} {y : String} (ys : List String)
    (hy : p y = false) : (y :: ys).takeWhile p = [] := by
  simp [List.takeWhile_cons, hy]

lemma dropWhile_cons_neg {p : String → Bool} {y : String} (ys : List String)
    (hy : p y = false) : (y :: ys).dropWhile p = y :: ys := by
  simp [List.dropWhile_cons, hy]

lemma parseScoreIndex_eval :
    ∀ rows : List (List String),
    (∀ r ∈ rows, (parseDate (r.getD 1 "")).isSome) →
    ∃ ix, parseScoreIndex rows = some ix
      ∧ List.Forall₂
          (fun r p => p.1 = r.getD 0 "" ∧ parseDate (r.getD 1 "") = some p.2)
          rows ix := by
  intro rows
  induction rows with
  | nil => exact fun _ => ⟨[], rfl, List.Forall₂.nil⟩
  | cons r rs ih =>
    intro h
    obtain ⟨ix, hix, hrel⟩ := ih (fun x hx => h x (by simp [hx]))
    obtain ⟨d, hd⟩ := Option.isSome_iff_exists.mp (h r (by simp))
    have hd2 : parseDate (r[1]?.getD "") = some d := by
      simpa [List.getD] using hd
    exact ⟨(r.getD 0 "", d) :: ix, by simp [parseScoreIndex, hd2, hix, List.getD],
      List.Forall₂.cons ⟨rfl, hd⟩ hrel⟩

/-- `pd.read_csv` on a window that lands exactly on a nonempty block of rows
of uniform width `N + 2`. -/
lemma readCsv_eval {L : List String} {a : ℕ} {rows t : List String} {N : ℕ}
    (hdrop : L.drop a = rows ++ t) (hne : rows ≠ [])
    (hw : ∀ r ∈ rows, (splitCh '\t' r).length = N + 2) :
    readCsv L a rows.length = .ok (rows.map (fun l => splitCh '\t' l), N) := by
  unfold readCsv
  rw [hdrop, List.take_left]
  obtain ⟨r0, rs, rfl⟩ := List.exists_cons_of_ne_nil hne
  simp only [List.map_cons]
  have hcond : (decide (2 ≤ (splitCh '\t' r0).length)
      && (rs.map (fun l => splitCh '\t' l)).all
        (fun q => decide (q.length = (splitCh '\t' r0).length))) = true := by
    rw [Bool.and_eq_true]
    refine ⟨decide_eq_true (by rw [hw r0 (by simp)]; omega), ?_⟩
    rw [List.all_eq_true]
    intro q hq
    obtain ⟨l, hl, rfl⟩ := List.mem_map.mp hq
    exact decide_eq_true (by rw [hw l (by simp [hl]), hw r0 (by simp)])
  rw [if_pos (by simpa using hcond)]
  rw [hw r0 (by simp)]
  simp

/-- Cursor evaluation of `read_parafac_model` up to the scores phase, on a
well-formed file body: every `while` loop consumes exactly its block, the two
`read_csv` windows land exactly on the loadings rows, and the reader is left
running the terminal scores/`end` phase on the tail `T`. -/
lemma read_parafac_phases (lead metaRows exRows emRows T : List String) (N : ℕ)
    (hlead : ∀ l ∈ lead, hashIn l = true)
    (hm1 : metaRows ≠ []) (hm2 : ∀ l ∈ metaRows, hashIn l = false)
    (hx1 : exRows ≠ [])
    (hx2 : ∀ l ∈ exRows, hashIn l = false ∧ pyIn "Ex" l = true)
    (he1 : emRows ≠ [])
    (he2 : ∀ l ∈ emRows, hashIn l = false ∧ pyIn "Em" l = true ∧ pyIn "Ex" l = false)
    (hwex : ∀ r ∈ exRows, (splitCh '\t' r).length = N + 2)
    (hwem : ∀ r ∈ emRows, (splitCh '\t' r).length = N + 2)
    (hThead : ∀ y, T.head? = some y → hashIn y = true ∧ pyIn "Em" y = false) :
    read_parafac_model
        (lead ++ (metaRows ++ ("# Excitation" :: (exRows ++ (emRows ++ T)))))
      = match endLoop (mkScores
            (lead ++ (metaRows ++ ("# Excitation" :: (exRows ++ (emRows ++ T)))))
            (lead.length + metaRows.length + 1 + exRows.length + emRows.length
              + (T.takeWhile hashIn).length)
            ((T.dropWhile hashIn).takeWhile (fun l => pyIn "Score" l)).length
            (component_label N)) none
          ((T.dropWhile hashIn).dropWhile (fun l => pyIn "Score" l)) with
        | .error e => .error e
        | .ok sdf => .ok
            ({ index := rawIndex (exRows.map (fun l => splitCh '\t' l)),
               indexNames := ["type", "wavelength"], columns := component_label N,
               values := (exRows.map (fun l => splitCh '\t' l)).map
                 (fun r => r.drop 2) },
             { index := rawIndex (emRows.map (fun l => splitCh '\t' l)),
               indexNames := ["type", "wavelength"], columns := component_label N,
               values := (emRows.map (fun l => splitCh '\t' l)).map
                 (fun r => r.drop 2) },
             sdf,
             metaRows.map (fun l =>
               match splitCh '\t' l with
               | p0 :: p1 :: _ => (p0, p1)
               | [p0] => (p0, "")
               | [] => ("", ""))) := by
  obtain ⟨m0, ms, rfl⟩ := List.exists_cons_of_ne_nil hm1
  obtain ⟨x0, xs, rfl⟩ := List.exists_cons_of_ne_nil hx1
  obtain ⟨e0, es, rfl⟩ := List.exists_cons_of_ne_nil he1
  have hEx : hashIn "# Excitation" = true := by decide
  have stop1 : List.takeWhile hashIn ((m0 :: ms) ++ ("# Excitation" ::
      ((x0 :: xs) ++ ((e0 :: es) ++ T)))) = [] := by
    rw [List.cons_append]
    exact takeWhile_cons_neg _ (hm2 m0 (by simp))
  have stop1d : List.dropWhile hashIn ((m0 :: ms) ++ ("# Excitation" ::
      ((x0 :: xs) ++ ((e0 :: es) ++ T))))
      = (m0 :: ms) ++ ("# Excitation" :: ((x0 :: xs) ++ ((e0 :: es) ++ T))) := by
    rw [List.cons_append]
    exact dropWhile_cons_neg _ (hm2 m0 (by simp))
  have p1t : ((lead ++ ((m0 :: ms) ++ ("# Excitation" :: ((x0 :: xs) ++
      ((e0 :: es) ++ T))))).takeWhile hashIn) = lead := by
    rw [takeWhile_append_all hlead, stop1, List.append_nil]
  have p1d : ((lead ++ ((m0 :: ms) ++ ("# Excitation" :: ((x0 :: xs) ++
      ((e0 :: es) ++ T))))).dropWhile hashIn)
      = (m0 :: ms) ++ ("# Excitation" :: ((x0 :: xs) ++ ((e0 :: es) ++ T))) := by
    rw [dropWhile_append_all hlead, stop1d]
  have stop2 : List.takeWhile (fun l => !hashIn l) ("# Excitation" ::
      ((x0 :: xs) ++ ((e0 :: es) ++ T))) = [] :=
    takeWhile_cons_neg _ (by simp [hEx])
  have stop2d : List.dropWhile (fun l => !hashIn l) ("# Excitation" ::
      ((x0 :: xs) ++ ((e0 :: es) ++ T)))
      = "# Excitation" :: ((x0 :: xs) ++ ((e0 :: es) ++ T)) :=
    dropWhile_cons_neg _ (by simp [hEx])
  have p2t : (((m0 :: ms) ++ ("# Excitation" :: ((x0 :: xs) ++
      ((e0 :: es) ++ T)))).takeWhile (fun l => !hashIn l)) = m0 :: ms := by
    rw [takeWhile_append_all (fun x hx => by simp [hm2 x hx]), stop2,
      List.append_nil]
  have p2d : (((m0 :: ms) ++ ("# Excitation" :: ((x0 :: xs) ++
      ((e0 :: es) ++ T)))).dropWhile (fun l => !hashIn l))
      = "# Excitation" :: ((x0 :: xs) ++ ((e0 :: es) ++ T)) := by
    rw [dropWhile_append_all (fun x hx => by simp [hm2 x hx]), stop2d]
  have stop3 : List.takeWhile hashIn ((x0 :: xs) ++ ((e0 :: es) ++ T)) = [] := by
    rw [List.cons_append]
    exact takeWhile_cons_neg _ (hx2 x0 (by simp)).1
  have stop3d : List.dropWhile hashIn ((x0 :: xs) ++ ((e0 :: es) ++ T))
      = (x0 :: xs) ++ ((e0 :: es) ++ T) := by
    rw [List.cons_append]
    exact dropWhile_cons_neg _ (hx2 x0 (by simp)).1
  have p3t : (("# Excitation" :: ((x0 :: xs) ++ ((e0 :: es) ++ T))).takeWhile
      hashIn) = ["# Excitation"] := by
    rw [List.takeWhile_cons, if_pos hEx, stop3]
  have p3d : (("# Excitation" :: ((x0 :: xs) ++ ((e0 :: es) ++ T))).dropWhile
      hashIn) = (x0 :: xs) ++ ((e0 :: es) ++ T) := by
    rw [List.dropWhile_cons, if_pos hEx, stop3d]
  have stop4 : List.takeWhile (fun l => pyIn "Ex" l) ((e0 :: es) ++ T) = [] := by
    rw [List.cons_append]
    exact takeWhile_cons_neg _ (he2 e0 (by simp)).2.2
  have stop4d : List.dropWhile (fun l => pyIn "Ex" l) ((e0 :: es) ++ T)
      = (e0 :: es) ++ T := by
    rw [List.cons_append]
    exact dropWhile_cons_neg _ (he2 e0 (by simp)).2.2
  have p4t : (((x0 :: xs) ++ ((e0 :: es) ++ T)).takeWhile
      (fun l => pyIn "Ex" l)) = x0 :: xs := by
    rw [takeWhile_append_all (fun x hx => (hx2 x hx).2), stop4, List.append_nil]
  have p4d : (((x0 :: xs) ++ ((e0 :: es) ++ T)).dropWhile
      (fun l => pyIn "Ex" l)) = (e0 :: es) ++ T := by
    rw [dropWhile_append_all (fun x hx => (hx2 x hx).2), stop4d]
  have stop5 : List.takeWhile (fun l => pyIn "Em" l) T = [] := by
    cases T with
    | nil => rfl
    | cons y ys => exact takeWhile_cons_neg _ (hThead y rfl).2
  have stop5d : List.dropWhile (fun l => pyIn "Em" l) T = T := by
    cases T with
    | nil => rfl
    | cons y ys => exact dropWhile_cons_neg _ (hThead y rfl).2
  have p5t : (((e0 :: es) ++ T).takeWhile (fun l => pyIn "Em" l)) = e0 :: es := by
    rw [takeWhile_append_all (fun x hx => (he2 x hx).2.1), stop5, List.append_nil]
  have p5d : (((e0 :: es) ++ T).dropWhile (fun l => pyIn "Em" l)) = T := by
    rw [dropWhile_append_all (fun x hx => (he2 x hx).2.1), stop5d]
  have hdropex : (lead ++ ((m0 :: ms) ++ ("# Excitation" :: ((x0 :: xs) ++
      ((e0 :: es) ++ T))))).drop (lead.length + (m0 :: ms).length + 1)
      = (x0 :: xs) ++ ((e0 :: es) ++ T) := by
    rw [show lead ++ ((m0 :: ms) ++ ("# Excitation" :: ((x0 :: xs) ++
        ((e0 :: es) ++ T))))
        = (lead ++ ((m0 :: ms) ++ ["# Excitation"])) ++ ((x0 :: xs) ++
          ((e0 :: es) ++ T)) by simp]
    have hlen : (lead ++ ((m0 :: ms) ++ ["# Excitation"])).length
        = lead.length + (m0 :: ms).length + 1 := by
      simp only [List.length_append, List.length_cons, List.length_nil]
      omega
    exact List.drop_left' hlen
  have hdropem : (lead ++ ((m0 :: ms) ++ ("# Excitation" :: ((x0 :: xs) ++
      ((e0 :: es) ++ T))))).drop
      (lead.length + (m0 :: ms).length + 1 + (x0 :: xs).length)
      = (e0 :: es) ++ T := by
    rw [show lead ++ ((m0 :: ms) ++ ("# Excitation" :: ((x0 :: xs) ++
        ((e0 :: es) ++ T))))
        = (lead ++ ((m0 :: ms) ++ ("# Excitation" :: (x0 :: xs)))) ++
          ((e0 :: es) ++ T) by simp]
    have hlen : (lead ++ ((m0 :: ms) ++ ("# Excitation" :: (x0 :: xs)))).length
        = lead.length + (m0 :: ms).length + 1 + (x0 :: xs).length := by
      simp only [List.length_append, List.length_cons, List.length_nil]
      omega
    exact List.drop_left' hlen
  have hcsvex := readCsv_eval hdropex (List.cons_ne_nil x0 xs) hwex
  have hcsvem := readCsv_eval hdropem (List.cons_ne_nil e0 es) hwem
  have hlab : (component_label N).length = N := by simp [component_label]
  simp only [read_parafac_model, p1t, p1d, p2t, p2d, p3t, p3d, p4t, p4d, p5t,
    p5d, List.length_cons, List.length_append, List.isEmpty_cons,
    Bool.false_eq_true, if_false, ite_false, List.length_nil]
  simp only [Nat.zero_add]
  rw [if_neg Nat.one_ne_zero]
  simp only [List.length_cons] at hcsvex hcsvem
  rw [hcsvex, hcsvem]
  simp [hlab]

/-- Claim C9: for every well-formed OpenFluor PARAFAC file whose loadings
tables have `N` data columns, `read_parafac_model` labels both loadings
tables' columns `component 1` through `component N`; when score rows are
present, the scores table carries the same component columns and its
second-level index is the raw timestamp strings parsed as datetimes; when the
scores block is absent, the scores result is `None`. -/
theorem read_parafac_model_wellformed
    (lead metaRows exRows emRows scoreRows : List String) (N : ℕ)
    (hlead : ∀ l ∈ lead, hashIn l = true)
    (hm1 : metaRows ≠ []) (hm2 : ∀ l ∈ metaRows, hashIn l = false)
    (hx1 : exRows ≠ [])
    (hx2 : ∀ l ∈ exRows, hashIn l = false ∧ pyIn "Ex" l = true)
    (he1 : emRows ≠ [])
    (he2 : ∀ l ∈ emRows, hashIn l = false ∧ pyIn "Em" l = true ∧
      pyIn "Ex" l = false)
    (hwex : ∀ r ∈ exRows, (splitCh '\t' r).length = N + 2)
    (hwem : ∀ r ∈ emRows, (splitCh '\t' r).length = N + 2)
    (hs1 : scoreRows ≠ [])
    (hs2 : ∀ l ∈ scoreRows, hashIn l = false ∧ pyIn "Score" l = true)
    (hws : ∀ r ∈ scoreRows, (splitCh '\t' r).length = N + 2)
    (hdates : ∀ r ∈ scoreRows, (parseDate ((splitCh '\t' r).getD 1 "")).isSome) :
    (∃ exdf emdf sdf info,
      read_parafac_model (mkOpenFluor lead metaRows exRows emRows scoreRows true)
        = .ok (exdf, emdf, some sdf, info)
      ∧ exdf.columns = component_label N
      ∧ emdf.columns = component_label N
      ∧ sdf.columns = component_label N
      ∧ List.Forall₂ (fun l p => p.1 = (splitCh '\t' l).getD 0 ""
          ∧ parseDate ((splitCh '\t' l).getD 1 "") = some p.2) scoreRows sdf.index)
    ∧ (∃ exdf emdf info,
      read_parafac_model (mkOpenFluor lead metaRows exRows emRows scoreRows false)
        = .ok (exdf, emdf, none, info)
      ∧ exdf.columns = component_label N
      ∧ emdf.columns = component_label N) := by
  constructor
  · -- scores present
    obtain ⟨s0, ss, rfl⟩ := List.exists_cons_of_ne_nil hs1
    have hT : ∀ y, (("# Score" :: ((s0 :: ss) ++ ["# end"])) : List String).head?
        = some y → hashIn y = true ∧ pyIn "Em" y = false := by
      intro y hy
      rw [List.head?_cons, Option.some.injEq] at hy
      subst hy
      exact ⟨by decide, by decide⟩
    have hphase := read_parafac_phases lead metaRows exRows emRows
      ("# Score" :: ((s0 :: ss) ++ ["# end"])) N hlead hm1 hm2 hx1 hx2 he1 he2
      hwex hwem hT
    have ht6 : List.takeWhile hashIn ("# Score" :: ((s0 :: ss) ++ ["# end"]))
        = ["# Score"] := by
      rw [List.takeWhile_cons, if_pos (by decide), List.cons_append,
        takeWhile_cons_neg _ (hs2 s0 (by simp)).1]
    have hd6 : List.dropWhile hashIn ("# Score" :: ((s0 :: ss) ++ ["# end"]))
        = (s0 :: ss) ++ ["# end"] := by
      rw [List.dropWhile_cons, if_pos (by decide), List.cons_append,
        dropWhile_cons_neg _ (hs2 s0 (by simp)).1]
    have ht7 : List.takeWhile (fun l => pyIn "Score" l) ((s0 :: ss) ++ ["# end"])
        = s0 :: ss := by
      rw [takeWhile_append_all (fun x hx => (hs2 x hx).2),
        takeWhile_cons_neg _ (by decide), List.append_nil]
    have hd7 : List.dropWhile (fun l => pyIn "Score" l) ((s0 :: ss) ++ ["# end"])
        = ["# end"] := by
      rw [dropWhile_append_all (fun x hx => (hs2 x hx).2),
        dropWhile_cons_neg _ (by decide)]
    have hdropsc : (lead ++ (metaRows ++ ("# Excitation" :: (exRows ++
        (emRows ++ ("# Score" :: ((s0 :: ss) ++ ["# end"]))))))).drop
        (lead.length + metaRows.length + 1 + exRows.length + emRows.length + 1)
        = (s0 :: ss) ++ ["# end"] := by
      rw [show lead ++ (metaRows ++ ("# Excitation" :: (exRows ++
          (emRows ++ ("# Score" :: ((s0 :: ss) ++ ["# end"]))))))
          = (lead ++ (metaRows ++ ("# Excitation" :: (exRows ++
            (emRows ++ ["# Score"]))))) ++ ((s0 :: ss) ++ ["# end"]) by simp]
      have hlen : (lead ++ (metaRows ++ ("# Excitation" :: (exRows ++
          (emRows ++ ["# Score"]))))).length
          = lead.length + metaRows.length + 1 + exRows.length + emRows.length
            + 1 := by
        simp only [List.length_append, List.length_cons, List.length_nil]
        omega
      exact List.drop_left' hlen
    have hcsvsc := readCsv_eval hdropsc (List.cons_ne_nil s0 ss) hws
    obtain ⟨ix, hix, hrel⟩ := parseScoreIndex_eval
      ((s0 :: ss).map (fun l => splitCh '\t' l))
      (by
        intro r hr
        obtain ⟨l, hl, rfl⟩ := List.mem_map.mp hr
        exact hdates l hl)
    have hsc : mkScores (lead ++ (metaRows ++ ("# Excitation" :: (exRows ++
        (emRows ++ ("# Score" :: ((s0 :: ss) ++ ["# end"])))))))
        (lead.length + metaRows.length + 1 + exRows.length + emRows.length + 1)
        (s0 :: ss).length (component_label N)
        = .ok { index := ix, indexNames := ["type", "time"],
                columns := component_label N,
                values := ((s0 :: ss).map (fun l => splitCh '\t' l)).map
                  (fun r => r.drop 2) } := by
      simp only [mkScores, hcsvsc, hix]
      rw [if_pos (by simp [component_label])]
    rw [show mkOpenFluor lead metaRows exRows emRows (s0 :: ss) true
        = lead ++ (metaRows ++ ("# Excitation" :: (exRows ++
          (emRows ++ ("# Score" :: ((s0 :: ss) ++ ["# end"]))))))
        from by simp [mkOpenFluor]]
    rw [hphase, ht6, hd6, ht7, hd7]
    simp only [List.length_cons, List.length_nil]
    rw [show lead.length + metaRows.length + 1 + exRows.length + emRows.length
        + (0 + 1) = lead.length + metaRows.length + 1 + exRows.length
        + emRows.length + 1 from by omega]
    rw [show (ss.length + 1) = (s0 :: ss).length from by simp]
    rw [hsc]
    exact ⟨_, _, _, _, rfl, rfl, rfl, rfl,
      (List.forall₂_map_left_iff).mp hrel⟩
  · -- scores absent
    have hT : ∀ y, ((["# end"]) : List String).head? = some y →
        hashIn y = true ∧ pyIn "Em" y = false := by
      intro y hy
      rw [List.head?_cons, Option.some.injEq] at hy
      subst hy
      exact ⟨by decide, by decide⟩
    have hphase := read_parafac_phases lead metaRows exRows emRows ["# end"] N
      hlead hm1 hm2 hx1 hx2 he1 he2 hwex hwem hT
    rw [show mkOpenFluor lead metaRows exRows emRows scoreRows false
        = lead ++ (metaRows ++ ("# Excitation" :: (exRows ++
          (emRows ++ ["# end"]))))
        from by simp [mkOpenFluor]]
    rw [hphase]
    have ht6 : List.takeWhile hashIn ["# end"] = ["# end"] := by
      rw [List.takeWhile_cons, if_pos (by decide)]
      rfl
    have hd6 : List.dropWhile hashIn ["# end"] = [] := by
      rw [List.dropWhile_cons, if_pos (by decide)]
      rfl
    rw [ht6, hd6]
    exact ⟨_, _, _, rfl, rfl, rfl⟩

/-- Claim C9, witness: a two-component OpenFluor file with two score rows,
read with and without its scores block. -/
theorem read_parafac_model_wellformed_witness :
    (∃ exdf emdf sdf info,
      read_parafac_model (mkOpenFluor ["# OpenFluor"] ["name\tdemo"]
          ["Ex\t250\t0.1\t0.2", "Ex\t255\t0.3\t0.4"]
          ["Em\t300\t0.5\t0.6", "Em\t310\t0.7\t0.8"]
          ["Score\t2021-01-01\t1.0\t2.0", "Score\t2021-01-02\t3.0\t4.0"] true)
        = .ok (exdf, emdf, some sdf, info)
      ∧ exdf.columns = component_label 2
      ∧ emdf.columns = component_label 2
      ∧ sdf.columns = component_label 2
      ∧ List.Forall₂ (fun l p => p.1 = (splitCh '\t' l).getD 0 ""
          ∧ parseDate ((splitCh '\t' l).getD 1 "") = some p.2)
          ["Score\t2021-01-01\t1.0\t2.0", "Score\t2021-01-02\t3.0\t4.0"]
          sdf.index)
    ∧ (∃ exdf emdf info,
      read_parafac_model (mkOpenFluor ["# OpenFluor"] ["name\tdemo"]
          ["Ex\t250\t0.1\t0.2", "Ex\t255\t0.3\t0.4"]
          ["Em\t300\t0.5\t0.6", "Em\t310\t0.7\t0.8"]
          ["Score\t2021-01-01\t1.0\t2.0", "Score\t2021-01-02\t3.0\t4.0"] false)
        = .ok (exdf, emdf, none, info)
      ∧ exdf.columns = component_label 2
      ∧ emdf.columns = component_label 2) :=
  read_parafac_model_wellformed ["# OpenFluor"] ["name\tdemo"]
    ["Ex\t250\t0.1\t0.2", "Ex\t255\t0.3\t0.4"]
    ["Em\t300\t0.5\t0.6", "Em\t310\t0.7\t0.8"]
    ["Score\t2021-01-01\t1.0\t2.0", "Score\t2021-01-02\t3.0\t4.0"] 2
    (by decide) (by decide) (by decide) (by decide) (by decide) (by decide)
    (by decide) (by decide) (by decide) (by decide) (by decide) (by decide)
    (by decide)

end EEMpy